import Mathlib

/-!
# pcl_sandbox: `openni_segment_tracking.cpp`

A shallow embedding of `OpenNISegmentTracking::estimatePlaneCoordinate` and of the
frame callback `OpenNISegmentTracking::cloud_cb`, with the properties of the
specification that concern them.

Floating-point scalars (`float`, `double`) are embedded as an ordered field `α`; the
square root is a parameter `sqrt : α → α`.  The theorems instantiate `α := ℝ` and
`sqrt := Real.sqrt`, so every arithmetic statement below is a statement over the reals.
A quotient by zero has the value `0` in this embedding (in IEEE arithmetic it is a NaN or
an infinity); the theorems that depend on a quotient carry the hypotheses under which
its divisor is non-zero, or state that the divisor vanishes.
-/

namespace PclSandbox

/-! ## `Eigen::Vector3f` -/

/-- The three coordinates of an `Eigen::Vector3f`. -/
@[ext]
structure Vector3 (α : Type) where
  x : α
  y : α
  z : α
deriving DecidableEq

namespace Vector3

variable {α : Type}

instance [Zero α] : Zero (Vector3 α) := ⟨⟨0, 0, 0⟩⟩

instance [Add α] : Add (Vector3 α) := ⟨fun a b => ⟨a.x + b.x, a.y + b.y, a.z + b.z⟩⟩

instance [Neg α] : Neg (Vector3 α) := ⟨fun a => ⟨-a.x, -a.y, -a.z⟩⟩

instance [Mul α] : HSMul α (Vector3 α) (Vector3 α) := ⟨fun c a => ⟨c * a.x, c * a.y, c * a.z⟩⟩

/-- The method `a.dot (b)`. -/
def dot [Add α] [Mul α] (a b : Vector3 α) : α :=
  a.x * b.x + a.y * b.y + a.z * b.z

/-- The method `a.cross (b)`. -/
def cross [Sub α] [Mul α] (a b : Vector3 α) : Vector3 α :=
  ⟨a.y * b.z - a.z * b.y, a.z * b.x - a.x * b.z, a.x * b.y - a.y * b.x⟩

/-- The method `a.squaredNorm ()`. -/
def squaredNorm [Add α] [Mul α] (a : Vector3 α) : α :=
  a.x * a.x + a.y * a.y + a.z * a.z

/-- The method `a.norm ()`, the square root of `squaredNorm`. -/
def norm [Add α] [Mul α] (sqrt : α → α) (a : Vector3 α) : α :=
  sqrt a.squaredNorm

/-- The value of `a` after `a.normalize ()`, which is `a /= a.norm ()`. -/
def normalized [Add α] [Mul α] [Div α] (sqrt : α → α) (a : Vector3 α) : Vector3 α :=
  ⟨a.x / a.norm sqrt, a.y / a.norm sqrt, a.z / a.norm sqrt⟩

end Vector3

/-! ## Points and clouds -/

/-- The fields of `pcl::PointXYZRGB` that the program reads. -/
structure PointXYZRGB (α : Type) where
  x : α
  y : α
  z : α
  rgb : α
deriving DecidableEq

/-- The fields of `pcl::PointCloud<PointT>` that the program reads and writes. -/
structure PointCloud (P : Type) where
  points : List P
  width : Nat
  height : Nat
  is_dense : Bool
deriving DecidableEq

/-- The typedef `Cloud`. -/
abbrev Cloud (α : Type) := PointCloud (PointXYZRGB α)

/-- The type `Eigen::Matrix4f`. -/
abbrev Matrix4 (α : Type) := Matrix (Fin 4) (Fin 4) α

/-! ## `estimatePlaneCoordinate` (lines 490-548) -/

/-- The local variables of `estimatePlaneCoordinate` at its `return ret`. -/
structure PlaneLocals (α : Type) where
  BA : Vector3 α
  BC : Vector3 α
  z : Vector3 α
  B : Vector3 α
  xx : Vector3 α
  yy : Vector3 α
  tmp : α
  beta2 : α
  beta : α
  alpha : α
  x : Vector3 α
  y : Vector3 α
  position : Vector3 α

/-- The body of the branch `cloud_hull->points.size() >= 3` of `estimatePlaneCoordinate`
(lines 495-543), on the hull points of index 0, 1 and 2; statement by statement. -/
def planeLocals {α : Type} [LinearOrderedField α] (sqrt : α → α)
    (p0 p1 p2 : PointXYZRGB α) : PlaneLocals α :=
  let BA : Vector3 α := ⟨p0.x - p1.x, p0.y - p1.y, p0.z - p1.z⟩
  let BC : Vector3 α := ⟨p2.x - p1.x, p2.y - p1.y, p2.z - p1.z⟩
  let z : Vector3 α := BC.cross BA
  let z : Vector3 α := z.normalized sqrt
  let B : Vector3 α := ⟨p1.x, p1.y, p1.z⟩
  let z : Vector3 α := if B.dot z > 0 then -z else z
  let xx : Vector3 α := BA
  let xx : Vector3 α := if xx.dot ⟨1, 0, 0⟩ < 0 then -xx else xx
  let xx : Vector3 α := xx.normalized sqrt
  let yy : Vector3 α := z.cross xx
  let yy : Vector3 α := yy.normalized sqrt
  let ux : Vector3 α := ⟨1, 0, 0⟩
  let tmp : α := ux.dot yy / ux.dot xx
  let beta2 : α := 1 / (1 + tmp * tmp)
  let beta : α := sqrt beta2
  let alpha : α := -beta * tmp
  let y : Vector3 α := alpha • xx + beta • yy
  let x : Vector3 α := y.cross z
  let x : Vector3 α := x.normalized sqrt
  let y : Vector3 α := y.normalized sqrt
  let OB : Vector3 α := ⟨p1.x, p1.y, p1.z⟩
  let yscale : α := -OB.dot y
  let xscale : α := -OB.dot x
  let position : Vector3 α := OB + yscale • y + xscale • x
  { BA := BA, BC := BC, z := z, B := B, xx := xx, yy := yy, tmp := tmp, beta2 := beta2,
    beta := beta, alpha := alpha, x := x, y := y, position := position }

/-- The method `estimatePlaneCoordinate (cloud_hull)`: the matrix `ret`, the identity with the
columns `x`, `y`, `z` and `position` written into its first three rows, when the hull has
three points or more, and `Eigen::Matrix4f::Identity ()` otherwise. -/
def estimatePlaneCoordinate {α : Type} [LinearOrderedField α] (sqrt : α → α)
    (cloud_hull : Cloud α) : Matrix4 α :=
  match cloud_hull.points with
  | p0 :: p1 :: p2 :: _ =>
    let l := planeLocals sqrt p0 p1 p2
    !![l.x.x, l.y.x, l.z.x, l.position.x;
       l.x.y, l.y.y, l.z.y, l.position.y;
       l.x.z, l.y.z, l.z.z, l.position.z;
       0, 0, 0, 1]
  | _ => 1

/-- The first three entries of column `j` of a 4x4 matrix, as a vector. -/
def columnVec {α : Type} (M : Matrix4 α) (j : Fin 4) : Vector3 α :=
  ⟨M 0 j, M 1 j, M 2 j⟩

/-- The upper-left 3x3 block of a 4x4 matrix. -/
def rotationBlock {α : Type} (M : Matrix4 α) : Matrix (Fin 3) (Fin 3) α :=
  !![M 0 0, M 0 1, M 0 2;
     M 1 0, M 1 1, M 1 2;
     M 2 0, M 2 1, M 2 2]

/-- The position of a point, as `Eigen::Vector3f (p.x, p.y, p.z)`. -/
def PointXYZRGB.position {α : Type} (p : PointXYZRGB α) : Vector3 α :=
  ⟨p.x, p.y, p.z⟩

/-- A 4x4 matrix is a rigid transform: the columns of its upper-left 3x3 block are unit
vectors, pairwise orthogonal and right-handed (the first cross the second is the third,
the determinant is 1), and its bottom row is `(0, 0, 0, 1)`. -/
def IsRigidTransform {α : Type} [LinearOrderedField α] (sqrt : α → α) (M : Matrix4 α) :
    Prop :=
  ((columnVec M 0).norm sqrt = 1 ∧ (columnVec M 1).norm sqrt = 1
      ∧ (columnVec M 2).norm sqrt = 1)
    ∧ ((columnVec M 0).dot (columnVec M 1) = 0 ∧ (columnVec M 1).dot (columnVec M 2) = 0
      ∧ (columnVec M 2).dot (columnVec M 0) = 0)
    ∧ ((columnVec M 0).cross (columnVec M 1) = columnVec M 2 ∧ (rotationBlock M).det = 1)
    ∧ (M 3 0 = 0 ∧ M 3 1 = 0 ∧ M 3 2 = 0 ∧ M 3 3 = 1)

/-- A hull of three points, `(1, 0, 1)`, `(0, 0, 1)` and `(0, 1, 1)`, which are not
collinear and lie in the plane `z = 1`. -/
def sampleHull (α : Type) [LinearOrderedField α] : Cloud α :=
  { points := [⟨1, 0, 1, 0⟩, ⟨0, 0, 1, 0⟩, ⟨0, 1, 1, 0⟩], width := 3, height := 1,
    is_dense := true }

/-- A hull of three points, `(1, 0, 1)`, `(0, 0, 1)` and `(1, 1, 1)`, whose outer points
both differ in `x` from the middle one. -/
def windingHull (α : Type) [LinearOrderedField α] : Cloud α :=
  { points := [⟨1, 0, 1, 0⟩, ⟨0, 0, 1, 0⟩, ⟨1, 1, 1, 0⟩], width := 3, height := 1,
    is_dense := true }

/-- The hull `windingHull` with its three points in the reverse order. -/
def windingHullReversed (α : Type) [LinearOrderedField α] : Cloud α :=
  { points := [⟨1, 1, 1, 0⟩, ⟨0, 0, 1, 0⟩, ⟨1, 0, 1, 0⟩], width := 3, height := 1,
    is_dense := true }

/-- A hull of three points on one line, `(0, 0, 1)`, `(1, 0, 1)` and `(2, 0, 1)`. -/
def collinearHull (α : Type) [LinearOrderedField α] : Cloud α :=
  { points := [⟨0, 0, 1, 0⟩, ⟨1, 0, 1, 0⟩, ⟨2, 0, 1, 0⟩], width := 3, height := 1,
    is_dense := true }

/-- Three points are collinear when the edge vectors from the middle one are parallel
(coincident points included). -/
def Collinear {α : Type} [LinearOrderedField α] (p0 p1 p2 : PointXYZRGB α) : Prop :=
  Vector3.cross (⟨p2.x - p1.x, p2.y - p1.y, p2.z - p1.z⟩ : Vector3 α)
    ⟨p0.x - p1.x, p0.y - p1.y, p0.z - p1.z⟩ = 0

/-! ## The frame callback `cloud_cb` (lines 390-488) and what it calls -/

/-- The fields `normal[0]`, `normal[1]`, `normal[2]` of `pcl::Normal`. -/
structure Normal (α : Type) where
  normal0 : α
  normal1 : α
  normal2 : α
deriving DecidableEq

/-- The fields of `pcl::PointXYZRGBNormal` that the program writes. -/
structure PointXYZRGBNormal (α : Type) where
  x : α
  y : α
  z : α
  rgb : α
  normal0 : α
  normal1 : α
  normal2 : α
deriving DecidableEq

/-- The typedef `RefCloud`. -/
abbrev RefCloud (α : Type) := PointCloud (PointXYZRGBNormal α)

/-- A freshly constructed `pcl::PointCloud`: no points, `width = height = 0`, dense. -/
def PointCloud.new {P : Type} : PointCloud P :=
  { points := [], width := 0, height := 0, is_dense := true }

/-- Undefined behaviour that the callback can reach. -/
inductive Fault where
  /-- The remainder `rand () % 0`. -/
  | moduloByZero
  /-- The element `points[i]` of a vector with `i` not below its size. -/
  | outOfRange
deriving DecidableEq

/-- The calls made by `cloud_cb`, as recorded in the call history: to the PCL objects,
to `rand` and to the methods `estimatePlaneCoordinate` and `addNormalToCloud`. -/
inductive Call where
  | filterPassThrough
  | gridSample
  | planeSegmentation
  | planeProjection
  | convexHull
  | estimatePlaneCoordinate
  | setTrans
  | polygonExtractSegment
  | extractPositiveFilter
  | euclideanSegment
  | rand
  | normalEstimation
  | addNormalToCloud
  | setReferenceCloud
  | setMinIndices
  | setInputCloud
  | compute
deriving DecidableEq

/-- The PCL objects the class delegates to, as configured by the constructor
(lines 95-155), each taken as the function from its input to its output. -/
structure Collaborators (α : Type) where
  /-- The function `std::sqrt`. -/
  sqrt : α → α
  /-- The filter `pass_` (limits 0.0 to 2.0 on `z`, organized). -/
  filterPassThrough : Cloud α → Cloud α
  /-- The filter `grid_` (leaf size 0.01). -/
  gridSample : Cloud α → Cloud α
  /-- The segmenter `seg_`: model coefficients and inlier indices. -/
  planeSegmentation : Cloud α → List α × List Nat
  /-- The filter `pcl::ProjectInliers` on a cloud and model coefficients. -/
  planeProjection : Cloud α → List α → Cloud α
  /-- The hull that `pcl::ConvexHull::reconstruct` writes. -/
  convexHull : Cloud α → Cloud α
  /-- The indices `pcl::ExtractPolygonalPrismData::segment` writes, on a planar hull and
  an input cloud (height limits 0.01 to 10.0). -/
  polygonExtractSegment : Cloud α → Cloud α → List Nat
  /-- The filter `extract_positive_` on an input cloud and indices. -/
  extractPositiveFilter : Cloud α → List Nat → Cloud α
  /-- The clusters `pcl::EuclideanClusterExtraction::extract` writes (tolerance 0.05,
  sizes 100 to 25000). -/
  euclideanSegment : Cloud α → List (List Nat)
  /-- The normals that `ne_.compute` writes (search radius 0.03). -/
  normalEstimation : Cloud α → PointCloud (Normal α)

/-- What this program has handed to `tracker_` after construction. -/
structure Tracker (α : Type) where
  /-- The argument of the last `setTrans`. -/
  trans : Option (Matrix4 α)
  /-- The argument of the last `setReferenceCloud`. -/
  reference : Option (RefCloud α)
  /-- The argument of the last `setMinIndices`. -/
  min_indices : Option Nat
  /-- The argument of the last `setInputCloud`. -/
  input : Option (RefCloud α)
  /-- The number of `compute ()` calls made on the tracker. -/
  computes : Nat

/-- The members of `OpenNISegmentTracking` that `cloud_cb` reads or writes, and the
history of the calls made so far. -/
structure OpenNISegmentTracking (α : Type) where
  normals_ : Option (PointCloud (Normal α))
  cloud_pass_ : Option (Cloud α)
  cloud_pass_downsampled_ : Option (Cloud α)
  nonplane_cloud_ : Option (Cloud α)
  cloud_hull_ : Option (Cloud α)
  segmented_cloud_ : Option (Cloud α)
  plane_trans_ : Option (Matrix4 α)
  new_cloud_ : Bool
  tracker_ : Tracker α
  firstp_ : Bool
  calls : List Call

/-- The object after its constructor (lines 87-156): `firstp_ = true`,
`new_cloud_ (false)`, null cloud pointers, a tracker without reference cloud. -/
def OpenNISegmentTracking.init {α : Type} : OpenNISegmentTracking α :=
  { normals_ := none, cloud_pass_ := none, cloud_pass_downsampled_ := none,
    nonplane_cloud_ := none, cloud_hull_ := none, segmented_cloud_ := none,
    plane_trans_ := none, new_cloud_ := false,
    tracker_ := { trans := none, reference := none, min_indices := none, input := none,
                  computes := 0 },
    firstp_ := true, calls := [] }

/-- The object when `cloud_cb` returns or stops, and the fault on which it stopped. -/
structure Outcome (α : Type) where
  state : OpenNISegmentTracking α
  fault : Option Fault

/-- The loop of lines 376-387 (and of lines 471-482): iteration `i` reads
`cloud->points[i]` and `normals->points[i]` and pushes the joined point; reading
`normals->points[i]` past the end of the normals is a fault. -/
def attachNormals {α : Type} :
    List (PointXYZRGB α) → List (Normal α) → Except Fault (List (PointXYZRGBNormal α))
  | [], _ => .ok []
  | _ :: _, [] => .error Fault.outOfRange
  | p :: ps, n :: ns =>
    match attachNormals ps ns with
    | .ok rest =>
      .ok ({ x := p.x, y := p.y, z := p.z, rgb := p.rgb, normal0 := n.normal0,
             normal1 := n.normal1, normal2 := n.normal2 } :: rest)
    | .error f => .error f

/-- The method `addNormalToCloud (cloud, normals, result)` (lines 369-388): the cloud `result`
afterwards. -/
def addNormalToCloud {α : Type} (cloud : Cloud α) (normals : PointCloud (Normal α))
    (result : RefCloud α) : Except Fault (RefCloud α) :=
  match attachNormals cloud.points normals.points with
  | .ok pts =>
    .ok { points := result.points ++ pts, width := cloud.width, height := cloud.height,
          is_dense := cloud.is_dense }
  | .error f => .error f

/-- The loop of lines 445-449: iteration `i` pushes
`nonplane_cloud_->points[segmented_indices.indices[i]]`. -/
def selectPoints {α : Type} (points : List (PointXYZRGB α)) :
    List Nat → Except Fault (List (PointXYZRGB α))
  | [] => .ok []
  | j :: js =>
    match points[j]? with
    | none => .error Fault.outOfRange
    | some p =>
      match selectPoints points js with
      | .ok rest => .ok (p :: rest)
      | .error f => .error f

/-- The method `tracking (cloud)` (lines 361-367): `setInputCloud` then `compute` on the
tracker. -/
def tracking {α : Type} (self : OpenNISegmentTracking α) (cloud : RefCloud α) :
    OpenNISegmentTracking α :=
  let self := { self with tracker_ := { self.tracker_ with input := some cloud },
                          calls := self.calls ++ [Call.setInputCloud] }
  { self with tracker_ := { self.tracker_ with computes := self.tracker_.computes + 1 },
              calls := self.calls ++ [Call.compute] }

/-- The block of lines 407-461 of `cloud_cb`: hull, plane frame, prism extraction,
clustering, random choice of a cluster, normals, tracker initialisation, latch release.
`rand` is the value that the call `rand ()` returns. -/
def cloud_cb_acquire {α : Type} [LinearOrderedField α] (env : Collaborators α)
    (self : OpenNISegmentTracking α) (cloud_pass_downsampled : Cloud α)
    (coefficients : List α) (rand : Nat) : Outcome α :=
  let cloud_projected := env.planeProjection cloud_pass_downsampled coefficients
  let self := { self with calls := self.calls ++ [Call.planeProjection] }
  let cloud_hull := env.convexHull cloud_projected
  let self := { self with cloud_hull_ := some cloud_hull,
                          calls := self.calls ++ [Call.convexHull] }
  let self := { self with plane_trans_ := some (estimatePlaneCoordinate env.sqrt cloud_hull),
                          calls := self.calls ++ [Call.estimatePlaneCoordinate] }
  let self := { self with tracker_ := { self.tracker_ with trans := some 1 },
                          calls := self.calls ++ [Call.setTrans] }
  let inliers_polygon := env.polygonExtractSegment cloud_hull cloud_pass_downsampled
  let self := { self with calls := self.calls ++ [Call.polygonExtractSegment] }
  let nonplane_cloud := env.extractPositiveFilter cloud_pass_downsampled inliers_polygon
  let self := { self with nonplane_cloud_ := some nonplane_cloud,
                          calls := self.calls ++ [Call.extractPositiveFilter] }
  let cluster_indices := env.euclideanSegment nonplane_cloud
  let self := { self with calls := self.calls ++ [Call.euclideanSegment] }
  let self := { self with calls := self.calls ++ [Call.rand] }
  if h : cluster_indices.length = 0 then
    { state := self, fault := some Fault.moduloByZero }
  else
    let segment_index := rand % cluster_indices.length
    let segmented_indices :=
      cluster_indices.get ⟨segment_index, Nat.mod_lt rand (Nat.pos_of_ne_zero h)⟩
    match selectPoints nonplane_cloud.points segmented_indices with
    | .error f => { state := self, fault := some f }
    | .ok pts =>
      let segmented_cloud : Cloud α :=
        { points := pts, width := pts.length, height := 1, is_dense := true }
      let self := { self with segmented_cloud_ := some segmented_cloud }
      let normals := env.normalEstimation segmented_cloud
      let self := { self with calls := self.calls ++ [Call.normalEstimation] }
      let self := { self with calls := self.calls ++ [Call.addNormalToCloud] }
      match addNormalToCloud segmented_cloud normals PointCloud.new with
      | .error f => { state := self, fault := some f }
      | .ok ref_cloud =>
        let self := { self with tracker_ := { self.tracker_ with reference := some ref_cloud },
                                calls := self.calls ++ [Call.setReferenceCloud] }
        let self := { self with
                        tracker_ := { self.tracker_ with
                                        min_indices := some (ref_cloud.points.length / 2) },
                        calls := self.calls ++ [Call.setMinIndices] }
        let self := { self with firstp_ := false }
        { state := { self with new_cloud_ := true }, fault := none }

/-- The block of lines 465-484 of `cloud_cb`: normals of the preprocessed cloud, the
tracking cloud built from both, and the tracker update. -/
def cloud_cb_track {α : Type} (env : Collaborators α) (self : OpenNISegmentTracking α)
    (cloud_pass_downsampled : Cloud α) : Outcome α :=
  let normals := env.normalEstimation cloud_pass_downsampled
  let self := { self with normals_ := some normals,
                          calls := self.calls ++ [Call.normalEstimation] }
  match attachNormals cloud_pass_downsampled.points normals.points with
  | .error f => { state := self, fault := some f }
  | .ok pts =>
    let tracking_cloud : RefCloud α :=
      { points := pts, width := cloud_pass_downsampled.width,
        height := cloud_pass_downsampled.height,
        is_dense := cloud_pass_downsampled.is_dense }
    let self := tracking self tracking_cloud
    { state := { self with new_cloud_ := true }, fault := none }

/-- The method `cloud_cb (cloud)` (lines 390-488), with `rand` the value a call of `rand ()`
returns during it. -/
def cloud_cb {α : Type} [LinearOrderedField α] (env : Collaborators α)
    (self : OpenNISegmentTracking α) (cloud : Cloud α) (rand : Nat) : Outcome α :=
  let cloud_pass := env.filterPassThrough cloud
  let self := { self with cloud_pass_ := some cloud_pass,
                          calls := self.calls ++ [Call.filterPassThrough] }
  let cloud_pass_downsampled := env.gridSample cloud_pass
  let self := { self with cloud_pass_downsampled_ := some cloud_pass_downsampled,
                          calls := self.calls ++ [Call.gridSample] }
  if self.firstp_ then
    let seg := env.planeSegmentation cloud_pass_downsampled
    let coefficients := seg.1
    let inliers := seg.2
    let self := { self with calls := self.calls ++ [Call.planeSegmentation] }
    if inliers.length > 3 then
      cloud_cb_acquire env self cloud_pass_downsampled coefficients rand
    else
      { state := { self with new_cloud_ := true }, fault := none }
  else
    cloud_cb_track env self cloud_pass_downsampled

/-- The callback on a sequence of frames, each with the value its `rand ()` returns;
a fault ends the run. -/
def runFrames {α : Type} [LinearOrderedField α] (env : Collaborators α) :
    OpenNISegmentTracking α → List (Cloud α × Nat) → Outcome α
  | self, [] => { state := self, fault := none }
  | self, frame :: frames =>
    match cloud_cb env self frame.1 frame.2 with
    | { state := next, fault := none } => runFrames env next frames
    | out => out

/-- A frame of four points of the plane `z = 1`: `(1, 0, 1)`, `(0, 0, 1)`, `(0, 1, 1)`
and `(1, 1, 1)`. -/
def sampleFrame (α : Type) [LinearOrderedField α] : Cloud α :=
  { points := [⟨1, 0, 1, 0⟩, ⟨0, 0, 1, 0⟩, ⟨0, 1, 1, 0⟩, ⟨1, 1, 1, 0⟩], width := 4,
    height := 1, is_dense := true }

/-- Stand-ins for the PCL objects, for evaluating the callback: the filters return
their input cloud, plane segmentation returns the plane `z = 1` with `inliers`, prism
extraction keeps the whole cloud, clustering returns `clusters`, and normal estimation
returns the normal `(0, 0, 1)` for every point. -/
def stubCollaborators (α : Type) [LinearOrderedField α] (inliers : List Nat)
    (clusters : List (List Nat)) : Collaborators α :=
  { sqrt := id
    filterPassThrough := id
    gridSample := id
    planeSegmentation := fun _ => ([0, 0, 1, -1], inliers)
    planeProjection := fun cloud _ => cloud
    convexHull := id
    polygonExtractSegment := fun _ _ => []
    extractPositiveFilter := fun cloud _ => cloud
    euclideanSegment := fun _ => clusters
    normalEstimation := fun cloud =>
      { points := cloud.points.map (fun _ => ⟨0, 0, 1⟩), width := cloud.width,
        height := cloud.height, is_dense := cloud.is_dense } }

/-- The calls of one frame in the Tracking state. -/
def trackingCalls : List Call :=
  [Call.filterPassThrough, Call.gridSample, Call.normalEstimation, Call.setInputCloud,
    Call.compute]

/-- The calls of one frame that completes the acquisition. -/
def acquisitionCalls : List Call :=
  [Call.filterPassThrough, Call.gridSample, Call.planeSegmentation, Call.planeProjection,
    Call.convexHull, Call.estimatePlaneCoordinate, Call.setTrans, Call.polygonExtractSegment,
    Call.extractPositiveFilter, Call.euclideanSegment, Call.rand, Call.normalEstimation,
    Call.addNormalToCloud, Call.setReferenceCloud, Call.setMinIndices]

/-- An object in the Tracking state: the constructed object with the latch released. -/
def trackingObject (α : Type) : OpenNISegmentTracking α :=
  { (OpenNISegmentTracking.init : OpenNISegmentTracking α) with firstp_ := false }

/-- A hull of three points, `(0, 1, 1)`, `(0, 0, 1)` and `(1, 0, 1)`, which are not
collinear and whose first two points have the same `x`. -/
def verticalEdgeHull (α : Type) [LinearOrderedField α] : Cloud α :=
  { points := [⟨0, 1, 1, 0⟩, ⟨0, 0, 1, 0⟩, ⟨1, 0, 1, 0⟩], width := 3, height := 1,
    is_dense := true }

/-- A cloud of one point, `(1, 0, 1)`. -/
def onePointCloud (α : Type) [LinearOrderedField α] : Cloud α :=
  { points := [⟨1, 0, 1, 0⟩], width := 1, height := 1, is_dense := true }

/-- A cloud of two normals, both `(0, 0, 1)`. -/
def twoNormals (α : Type) [LinearOrderedField α] : PointCloud (Normal α) :=
  { points := [⟨0, 0, 1⟩, ⟨0, 0, 1⟩], width := 2, height := 1, is_dense := true }

/-- The point that the loops of lines 376-387 and 471-482 push: the position and colour
of `p` with the normal `n`. -/
def joinNormal {α : Type} (p : PointXYZRGB α) (n : Normal α) : PointXYZRGBNormal α :=
  { x := p.x, y := p.y, z := p.z, rgb := p.rgb, normal0 := n.normal0,
    normal1 := n.normal1, normal2 := n.normal2 }

/-! ## Vector algebra -/

namespace Vector3

section Components

variable {α : Type}

@[simp]
theorem zero_x [Zero α] : (0 : Vector3 α).x = 0 := rfl

@[simp]
theorem zero_y [Zero α] : (0 : Vector3 α).y = 0 := rfl

@[simp]
theorem zero_z [Zero α] : (0 : Vector3 α).z = 0 := rfl

@[simp]
theorem add_x [Add α] (a b : Vector3 α) : (a + b).x = a.x + b.x := rfl

@[simp]
theorem add_y [Add α] (a b : Vector3 α) : (a + b).y = a.y + b.y := rfl

@[simp]
theorem add_z [Add α] (a b : Vector3 α) : (a + b).z = a.z + b.z := rfl

@[simp]
theorem neg_x [Neg α] (a : Vector3 α) : (-a).x = -a.x := rfl

@[simp]
theorem neg_y [Neg α] (a : Vector3 α) : (-a).y = -a.y := rfl

@[simp]
theorem neg_z [Neg α] (a : Vector3 α) : (-a).z = -a.z := rfl

@[simp]
theorem smul_x [Mul α] (c : α) (a : Vector3 α) : (c • a).x = c * a.x := rfl

@[simp]
theorem smul_y [Mul α] (c : α) (a : Vector3 α) : (c • a).y = c * a.y := rfl

@[simp]
theorem smul_z [Mul α] (c : α) (a : Vector3 α) : (c • a).z = c * a.z := rfl

end Components

section Ring

variable {R : Type} [CommRing R]

theorem dot_comm (a b : Vector3 R) : a.dot b = b.dot a := by
  simp only [dot]; ring

theorem dot_self (a : Vector3 R) : a.dot a = a.squaredNorm := rfl

theorem dot_neg_right (a b : Vector3 R) : a.dot (-b) = -a.dot b := by
  simp only [dot, neg_x, neg_y, neg_z]; ring

theorem squaredNorm_neg (a : Vector3 R) : (-a).squaredNorm = a.squaredNorm := by
  simp only [squaredNorm, neg_x, neg_y, neg_z]; ring

theorem dot_cross_left (a b : Vector3 R) : a.dot (a.cross b) = 0 := by
  simp only [dot, cross]; ring

theorem dot_cross_right (a b : Vector3 R) : b.dot (a.cross b) = 0 := by
  simp only [dot, cross]; ring

theorem cross_neg_left (a b : Vector3 R) : (-a).cross b = -a.cross b := by
  ext <;> simp only [cross, neg_x, neg_y, neg_z] <;> ring

/-- Lagrange's identity. -/
theorem squaredNorm_cross (a b : Vector3 R) :
    (a.cross b).squaredNorm = a.squaredNorm * b.squaredNorm - a.dot b ^ 2 := by
  simp only [squaredNorm, cross, dot]; ring

/-- The vector triple product `(a × b) × c = (a · c) b - (b · c) a`. -/
theorem cross_cross_left (a b c : Vector3 R) :
    (a.cross b).cross c = a.dot c • b + -(b.dot c • a) := by
  ext <;> simp only [cross, dot, add_x, add_y, add_z, neg_x, neg_y, neg_z, smul_x, smul_y,
    smul_z] <;> ring

/-- The squared norm of a combination of two vectors. -/
theorem squaredNorm_comb (c d : R) (u v : Vector3 R) :
    (c • u + d • v).squaredNorm
      = c ^ 2 * u.squaredNorm + 2 * (c * d) * u.dot v + d ^ 2 * v.squaredNorm := by
  simp only [squaredNorm, dot, add_x, add_y, add_z, smul_x, smul_y, smul_z]; ring

/-- The dot product of two combinations of the same two vectors. -/
theorem dot_comb (a b c d : R) (u v : Vector3 R) :
    (a • u + b • v).dot (c • u + d • v)
      = a * c * u.squaredNorm + (a * d + b * c) * u.dot v + b * d * v.squaredNorm := by
  simp only [squaredNorm, dot, add_x, add_y, add_z, smul_x, smul_y, smul_z]; ring

/-- The dot product of a combination with a third vector. -/
theorem comb_dot (a b : R) (u v w : Vector3 R) :
    (a • u + b • v).dot w = a * u.dot w + b * v.dot w := by
  simp only [dot, add_x, add_y, add_z, smul_x, smul_y, smul_z]; ring

/-- The cross product of two combinations of the same two vectors. -/
theorem cross_comb (a b c d : R) (u v : Vector3 R) :
    (a • u + b • v).cross (c • u + d • v) = (a * d - b * c) • u.cross v := by
  ext <;> simp only [cross, add_x, add_y, add_z, smul_x, smul_y, smul_z] <;> ring

end Ring

section Real

theorem squaredNorm_nonneg (a : Vector3 ℝ) : 0 ≤ a.squaredNorm := by
  simp only [squaredNorm]
  nlinarith [mul_self_nonneg a.x, mul_self_nonneg a.y, mul_self_nonneg a.z]

theorem squaredNorm_eq_zero_iff (a : Vector3 ℝ) : a.squaredNorm = 0 ↔ a = 0 := by
  constructor
  · intro h
    simp only [squaredNorm] at h
    have hx : a.x = 0 := by nlinarith [mul_self_nonneg a.x, mul_self_nonneg a.y, mul_self_nonneg a.z]
    have hy : a.y = 0 := by nlinarith [mul_self_nonneg a.x, mul_self_nonneg a.y, mul_self_nonneg a.z]
    have hz : a.z = 0 := by nlinarith [mul_self_nonneg a.x, mul_self_nonneg a.y, mul_self_nonneg a.z]
    ext <;> simp [hx, hy, hz]
  · intro h
    simp [h, squaredNorm]

theorem squaredNorm_pos {a : Vector3 ℝ} (h : a ≠ 0) : 0 < a.squaredNorm :=
  lt_of_le_of_ne (squaredNorm_nonneg a) (fun e => h ((squaredNorm_eq_zero_iff a).1 e.symm))

theorem norm_pos {a : Vector3 ℝ} (h : a ≠ 0) : 0 < a.norm Real.sqrt :=
  Real.sqrt_pos.2 (squaredNorm_pos h)

theorem norm_mul_self (a : Vector3 ℝ) :
    a.norm Real.sqrt * a.norm Real.sqrt = a.squaredNorm :=
  Real.mul_self_sqrt (squaredNorm_nonneg a)

/-- A normalised non-zero vector has length one. -/
theorem squaredNorm_normalized {a : Vector3 ℝ} (h : a ≠ 0) :
    (a.normalized Real.sqrt).squaredNorm = 1 := by
  have hn := norm_pos h
  have hs := norm_mul_self a
  simp only [squaredNorm] at hs
  simp only [normalized, squaredNorm]
  field_simp
  linarith

/-- Normalising a vector of length one leaves it as it is. -/
theorem normalized_of_unit {a : Vector3 ℝ} (h : a.squaredNorm = 1) :
    a.normalized Real.sqrt = a := by
  ext <;> simp [normalized, norm, h]

/-- Normalisation is a scaling by the inverse of the norm. -/
theorem normalized_eq_smul (a : Vector3 ℝ) :
    a.normalized Real.sqrt = (a.norm Real.sqrt)⁻¹ • a := by
  ext <;> simp [normalized, div_eq_inv_mul]

theorem normalized_neg (a : Vector3 ℝ) :
    (-a).normalized Real.sqrt = -a.normalized Real.sqrt := by
  ext <;> simp [normalized, norm, squaredNorm_neg, neg_div]

end Real

end Vector3

/-! ## The local variables of `estimatePlaneCoordinate` -/

section PlaneLocals

variable {α : Type} [LinearOrderedField α] (sqrt : α → α) (p0 p1 p2 : PointXYZRGB α)

theorem planeLocals_BA :
    (planeLocals sqrt p0 p1 p2).BA = ⟨p0.x - p1.x, p0.y - p1.y, p0.z - p1.z⟩ := rfl

theorem planeLocals_BC :
    (planeLocals sqrt p0 p1 p2).BC = ⟨p2.x - p1.x, p2.y - p1.y, p2.z - p1.z⟩ := rfl

theorem planeLocals_B : (planeLocals sqrt p0 p1 p2).B = ⟨p1.x, p1.y, p1.z⟩ := rfl

theorem planeLocals_z :
    (planeLocals sqrt p0 p1 p2).z
      = if (planeLocals sqrt p0 p1 p2).B.dot
            (((planeLocals sqrt p0 p1 p2).BC.cross (planeLocals sqrt p0 p1 p2).BA).normalized
              sqrt) > 0
        then -(((planeLocals sqrt p0 p1 p2).BC.cross (planeLocals sqrt p0 p1 p2).BA).normalized
              sqrt)
        else ((planeLocals sqrt p0 p1 p2).BC.cross (planeLocals sqrt p0 p1 p2).BA).normalized
              sqrt := rfl

theorem planeLocals_xx :
    (planeLocals sqrt p0 p1 p2).xx
      = (if (planeLocals sqrt p0 p1 p2).BA.dot ⟨1, 0, 0⟩ < 0
          then -(planeLocals sqrt p0 p1 p2).BA
          else (planeLocals sqrt p0 p1 p2).BA).normalized sqrt := rfl

theorem planeLocals_yy :
    (planeLocals sqrt p0 p1 p2).yy
      = ((planeLocals sqrt p0 p1 p2).z.cross (planeLocals sqrt p0 p1 p2).xx).normalized
          sqrt := rfl

theorem planeLocals_tmp :
    (planeLocals sqrt p0 p1 p2).tmp
      = Vector3.dot ⟨1, 0, 0⟩ (planeLocals sqrt p0 p1 p2).yy
          / Vector3.dot ⟨1, 0, 0⟩ (planeLocals sqrt p0 p1 p2).xx := rfl

theorem planeLocals_beta2 :
    (planeLocals sqrt p0 p1 p2).beta2
      = 1 / (1 + (planeLocals sqrt p0 p1 p2).tmp * (planeLocals sqrt p0 p1 p2).tmp) := rfl

theorem planeLocals_beta :
    (planeLocals sqrt p0 p1 p2).beta = sqrt (planeLocals sqrt p0 p1 p2).beta2 := rfl

theorem planeLocals_alpha :
    (planeLocals sqrt p0 p1 p2).alpha
      = -(planeLocals sqrt p0 p1 p2).beta * (planeLocals sqrt p0 p1 p2).tmp := rfl

theorem planeLocals_y :
    (planeLocals sqrt p0 p1 p2).y
      = ((planeLocals sqrt p0 p1 p2).alpha • (planeLocals sqrt p0 p1 p2).xx
          + (planeLocals sqrt p0 p1 p2).beta • (planeLocals sqrt p0 p1 p2).yy).normalized
          sqrt := rfl

theorem planeLocals_x :
    (planeLocals sqrt p0 p1 p2).x
      = (((planeLocals sqrt p0 p1 p2).alpha • (planeLocals sqrt p0 p1 p2).xx
          + (planeLocals sqrt p0 p1 p2).beta • (planeLocals sqrt p0 p1 p2).yy).cross
            (planeLocals sqrt p0 p1 p2).z).normalized sqrt := rfl

theorem planeLocals_position :
    (planeLocals sqrt p0 p1 p2).position
      = (planeLocals sqrt p0 p1 p2).B
          + (-(planeLocals sqrt p0 p1 p2).B.dot (planeLocals sqrt p0 p1 p2).y)
              • (planeLocals sqrt p0 p1 p2).y
          + (-(planeLocals sqrt p0 p1 p2).B.dot (planeLocals sqrt p0 p1 p2).x)
              • (planeLocals sqrt p0 p1 p2).x := rfl

end PlaneLocals

namespace Vector3

theorem smul_dot {R : Type} [CommRing R] (c : R) (a b : Vector3 R) :
    (c • a).dot b = c * a.dot b := by
  simp only [dot, smul_x, smul_y, smul_z]; ring

theorem neg_dot {R : Type} [CommRing R] (a b : Vector3 R) : (-a).dot b = -a.dot b := by
  simp only [dot, neg_x, neg_y, neg_z]; ring

theorem dot_ux {R : Type} [CommRing R] (a : Vector3 R) : a.dot ⟨1, 0, 0⟩ = a.x := by
  simp only [dot]; ring

theorem ux_dot {R : Type} [CommRing R] (a : Vector3 R) : dot ⟨1, 0, 0⟩ a = a.x := by
  simp only [dot]; ring

end Vector3

section PlaneFacts

open Vector3

variable (p0 p1 p2 : PointXYZRGB ℝ)

/-- The third axis is the normalised normal `BC × BA` or its opposite. -/
theorem planeLocals_z_cases :
    (planeLocals Real.sqrt p0 p1 p2).z
        = ((planeLocals Real.sqrt p0 p1 p2).BC.cross
            (planeLocals Real.sqrt p0 p1 p2).BA).normalized Real.sqrt
      ∨ (planeLocals Real.sqrt p0 p1 p2).z
        = -((planeLocals Real.sqrt p0 p1 p2).BC.cross
            (planeLocals Real.sqrt p0 p1 p2).BA).normalized Real.sqrt := by
  rw [planeLocals_z]
  split_ifs
  · exact Or.inr rfl
  · exact Or.inl rfl

/-- The third axis does not point away from the sensor: `B · z ≤ 0`. -/
theorem planeLocals_B_dot_z :
    (planeLocals Real.sqrt p0 p1 p2).B.dot (planeLocals Real.sqrt p0 p1 p2).z ≤ 0 := by
  rw [planeLocals_z]
  split_ifs with h
  · rw [dot_neg_right]; linarith
  · exact not_lt.1 h

theorem planeLocals_z_unit (h : ¬Collinear p0 p1 p2) :
    (planeLocals Real.sqrt p0 p1 p2).z.squaredNorm = 1 := by
  have hn : (planeLocals Real.sqrt p0 p1 p2).BC.cross (planeLocals Real.sqrt p0 p1 p2).BA ≠ 0 := h
  rcases planeLocals_z_cases p0 p1 p2 with e | e
  · rw [e]; exact squaredNorm_normalized hn
  · rw [e, squaredNorm_neg]; exact squaredNorm_normalized hn

theorem planeLocals_BA_dot_z :
    (planeLocals Real.sqrt p0 p1 p2).BA.dot (planeLocals Real.sqrt p0 p1 p2).z = 0 := by
  have h0 : (planeLocals Real.sqrt p0 p1 p2).BA.dot
      (((planeLocals Real.sqrt p0 p1 p2).BC.cross
        (planeLocals Real.sqrt p0 p1 p2).BA).normalized Real.sqrt) = 0 := by
    rw [normalized_eq_smul, dot_comm, smul_dot, dot_comm, dot_cross_right, mul_zero]
  rcases planeLocals_z_cases p0 p1 p2 with e | e
  · rw [e]; exact h0
  · rw [e, dot_neg_right, h0, neg_zero]

theorem planeLocals_BA_x : (planeLocals Real.sqrt p0 p1 p2).BA.x = p0.x - p1.x := rfl

/-- The vector `xx` before its normalisation: `BA` or its opposite, of positive first
coordinate when `BA.x` is not zero. -/
theorem planeLocals_xx_cases :
    (planeLocals Real.sqrt p0 p1 p2).xx
        = (planeLocals Real.sqrt p0 p1 p2).BA.normalized Real.sqrt
      ∨ (planeLocals Real.sqrt p0 p1 p2).xx
        = -(planeLocals Real.sqrt p0 p1 p2).BA.normalized Real.sqrt := by
  rw [planeLocals_xx]
  split_ifs
  · exact Or.inr (normalized_neg _)
  · exact Or.inl rfl

theorem planeLocals_BA_ne_zero (hx : p0.x ≠ p1.x) :
    (planeLocals Real.sqrt p0 p1 p2).BA ≠ 0 := by
  intro e
  have : (planeLocals Real.sqrt p0 p1 p2).BA.x = 0 := by rw [e]; rfl
  rw [planeLocals_BA_x] at this
  exact hx (sub_eq_zero.1 this)

theorem planeLocals_xx_unit (hx : p0.x ≠ p1.x) :
    (planeLocals Real.sqrt p0 p1 p2).xx.squaredNorm = 1 := by
  have hn := planeLocals_BA_ne_zero p0 p1 p2 hx
  rcases planeLocals_xx_cases p0 p1 p2 with e | e
  · rw [e]; exact squaredNorm_normalized hn
  · rw [e, squaredNorm_neg]; exact squaredNorm_normalized hn

theorem planeLocals_xx_dot_z :
    (planeLocals Real.sqrt p0 p1 p2).xx.dot (planeLocals Real.sqrt p0 p1 p2).z = 0 := by
  have h0 : ((planeLocals Real.sqrt p0 p1 p2).BA.normalized Real.sqrt).dot
      (planeLocals Real.sqrt p0 p1 p2).z = 0 := by
    rw [normalized_eq_smul, smul_dot, planeLocals_BA_dot_z, mul_zero]
  rcases planeLocals_xx_cases p0 p1 p2 with e | e
  · rw [e]; exact h0
  · rw [e, neg_dot, h0, neg_zero]

/-- The divisor `ux.dot (xx)` is `|BA.x| / |BA|`. -/
theorem planeLocals_xx_x :
    (planeLocals Real.sqrt p0 p1 p2).xx.x
      = |p0.x - p1.x| / (planeLocals Real.sqrt p0 p1 p2).BA.norm Real.sqrt := by
  rw [planeLocals_xx, dot_ux, planeLocals_BA_x]
  split_ifs with h
  · rw [abs_of_neg h]
    simp [normalized, Vector3.norm, squaredNorm_neg, planeLocals_BA_x]
  · rw [abs_of_nonneg (not_lt.1 h)]
    simp [normalized, planeLocals_BA_x]

theorem planeLocals_xx_pos (hx : p0.x ≠ p1.x) :
    0 < (planeLocals Real.sqrt p0 p1 p2).xx.x := by
  rw [planeLocals_xx_x]
  exact div_pos (abs_pos.2 (sub_ne_zero.2 hx)) (norm_pos (planeLocals_BA_ne_zero p0 p1 p2 hx))

theorem planeLocals_yy_eq (hc : ¬Collinear p0 p1 p2) (hx : p0.x ≠ p1.x) :
    (planeLocals Real.sqrt p0 p1 p2).yy
      = (planeLocals Real.sqrt p0 p1 p2).z.cross (planeLocals Real.sqrt p0 p1 p2).xx := by
  rw [planeLocals_yy]
  apply normalized_of_unit
  rw [squaredNorm_cross, planeLocals_z_unit p0 p1 p2 hc, planeLocals_xx_unit p0 p1 p2 hx,
    dot_comm, planeLocals_xx_dot_z]
  norm_num

theorem planeLocals_yy_unit (hc : ¬Collinear p0 p1 p2) (hx : p0.x ≠ p1.x) :
    (planeLocals Real.sqrt p0 p1 p2).yy.squaredNorm = 1 := by
  rw [planeLocals_yy_eq p0 p1 p2 hc hx, squaredNorm_cross, planeLocals_z_unit p0 p1 p2 hc,
    planeLocals_xx_unit p0 p1 p2 hx, dot_comm, planeLocals_xx_dot_z]
  norm_num

theorem planeLocals_xx_dot_yy (hc : ¬Collinear p0 p1 p2) (hx : p0.x ≠ p1.x) :
    (planeLocals Real.sqrt p0 p1 p2).xx.dot (planeLocals Real.sqrt p0 p1 p2).yy = 0 := by
  rw [planeLocals_yy_eq p0 p1 p2 hc hx, dot_cross_right]

theorem planeLocals_yy_dot_z (hc : ¬Collinear p0 p1 p2) (hx : p0.x ≠ p1.x) :
    (planeLocals Real.sqrt p0 p1 p2).yy.dot (planeLocals Real.sqrt p0 p1 p2).z = 0 := by
  rw [planeLocals_yy_eq p0 p1 p2 hc hx, dot_comm, dot_cross_left]

theorem planeLocals_tmp_eq :
    (planeLocals Real.sqrt p0 p1 p2).tmp
      = (planeLocals Real.sqrt p0 p1 p2).yy.x / (planeLocals Real.sqrt p0 p1 p2).xx.x := by
  rw [planeLocals_tmp, ux_dot, ux_dot]

theorem planeLocals_beta2_pos : 0 < (planeLocals Real.sqrt p0 p1 p2).beta2 := by
  rw [planeLocals_beta2]
  have : 0 ≤ (planeLocals Real.sqrt p0 p1 p2).tmp * (planeLocals Real.sqrt p0 p1 p2).tmp :=
    mul_self_nonneg _
  positivity

/-- The blend coefficient `beta` is the positive root. -/
theorem planeLocals_beta_pos : 0 < (planeLocals Real.sqrt p0 p1 p2).beta := by
  rw [planeLocals_beta]
  exact Real.sqrt_pos.2 (planeLocals_beta2_pos p0 p1 p2)

theorem planeLocals_beta_sq :
    (planeLocals Real.sqrt p0 p1 p2).beta ^ 2 = (planeLocals Real.sqrt p0 p1 p2).beta2 := by
  rw [planeLocals_beta]
  exact Real.sq_sqrt (le_of_lt (planeLocals_beta2_pos p0 p1 p2))

theorem planeLocals_alpha_beta :
    (planeLocals Real.sqrt p0 p1 p2).alpha ^ 2 + (planeLocals Real.sqrt p0 p1 p2).beta ^ 2
      = 1 := by
  have h1 := planeLocals_beta_sq p0 p1 p2
  have h2 := planeLocals_beta2 Real.sqrt p0 p1 p2
  have h3 : 0 ≤ (planeLocals Real.sqrt p0 p1 p2).tmp * (planeLocals Real.sqrt p0 p1 p2).tmp :=
    mul_self_nonneg _
  have h4 : (planeLocals Real.sqrt p0 p1 p2).beta2
      * (1 + (planeLocals Real.sqrt p0 p1 p2).tmp * (planeLocals Real.sqrt p0 p1 p2).tmp)
      = 1 := by
    rw [h2]; field_simp
  rw [planeLocals_alpha]
  calc (-(planeLocals Real.sqrt p0 p1 p2).beta * (planeLocals Real.sqrt p0 p1 p2).tmp) ^ 2
        + (planeLocals Real.sqrt p0 p1 p2).beta ^ 2
      = (planeLocals Real.sqrt p0 p1 p2).beta ^ 2
        * (1 + (planeLocals Real.sqrt p0 p1 p2).tmp * (planeLocals Real.sqrt p0 p1 p2).tmp) := by
        ring
    _ = 1 := by rw [h1, h4]

/-- The blend has no component along the world x-axis. -/
theorem planeLocals_blend_x (hx : p0.x ≠ p1.x) :
    (planeLocals Real.sqrt p0 p1 p2).alpha * (planeLocals Real.sqrt p0 p1 p2).xx.x
      + (planeLocals Real.sqrt p0 p1 p2).beta * (planeLocals Real.sqrt p0 p1 p2).yy.x = 0 := by
  have hp := planeLocals_xx_pos p0 p1 p2 hx
  rw [planeLocals_alpha, planeLocals_tmp_eq]
  field_simp

theorem planeLocals_y_eq (hc : ¬Collinear p0 p1 p2) (hx : p0.x ≠ p1.x) :
    (planeLocals Real.sqrt p0 p1 p2).y
      = (planeLocals Real.sqrt p0 p1 p2).alpha • (planeLocals Real.sqrt p0 p1 p2).xx
        + (planeLocals Real.sqrt p0 p1 p2).beta • (planeLocals Real.sqrt p0 p1 p2).yy := by
  rw [planeLocals_y]
  apply normalized_of_unit
  rw [squaredNorm_comb, planeLocals_xx_unit p0 p1 p2 hx, planeLocals_yy_unit p0 p1 p2 hc hx,
    planeLocals_xx_dot_yy p0 p1 p2 hc hx]
  have := planeLocals_alpha_beta p0 p1 p2
  linarith

theorem planeLocals_y_unit (hc : ¬Collinear p0 p1 p2) (hx : p0.x ≠ p1.x) :
    (planeLocals Real.sqrt p0 p1 p2).y.squaredNorm = 1 := by
  rw [planeLocals_y_eq p0 p1 p2 hc hx, squaredNorm_comb, planeLocals_xx_unit p0 p1 p2 hx,
    planeLocals_yy_unit p0 p1 p2 hc hx, planeLocals_xx_dot_yy p0 p1 p2 hc hx]
  have := planeLocals_alpha_beta p0 p1 p2
  linarith

theorem planeLocals_y_dot_z (hc : ¬Collinear p0 p1 p2) (hx : p0.x ≠ p1.x) :
    (planeLocals Real.sqrt p0 p1 p2).y.dot (planeLocals Real.sqrt p0 p1 p2).z = 0 := by
  rw [planeLocals_y_eq p0 p1 p2 hc hx, comb_dot, planeLocals_xx_dot_z,
    planeLocals_yy_dot_z p0 p1 p2 hc hx]
  ring

/-- The returned x-axis is `y × z` for the returned `y` and `z`. -/
theorem planeLocals_x_eq (hc : ¬Collinear p0 p1 p2) (hx : p0.x ≠ p1.x) :
    (planeLocals Real.sqrt p0 p1 p2).x
      = (planeLocals Real.sqrt p0 p1 p2).y.cross (planeLocals Real.sqrt p0 p1 p2).z := by
  rw [planeLocals_x, ← planeLocals_y_eq p0 p1 p2 hc hx]
  apply normalized_of_unit
  rw [squaredNorm_cross, planeLocals_y_unit p0 p1 p2 hc hx, planeLocals_z_unit p0 p1 p2 hc,
    planeLocals_y_dot_z p0 p1 p2 hc hx]
  norm_num

theorem planeLocals_x_unit (hc : ¬Collinear p0 p1 p2) (hx : p0.x ≠ p1.x) :
    (planeLocals Real.sqrt p0 p1 p2).x.squaredNorm = 1 := by
  rw [planeLocals_x_eq p0 p1 p2 hc hx, squaredNorm_cross, planeLocals_y_unit p0 p1 p2 hc hx,
    planeLocals_z_unit p0 p1 p2 hc, planeLocals_y_dot_z p0 p1 p2 hc hx]
  norm_num

theorem planeLocals_x_dot_y (hc : ¬Collinear p0 p1 p2) (hx : p0.x ≠ p1.x) :
    (planeLocals Real.sqrt p0 p1 p2).x.dot (planeLocals Real.sqrt p0 p1 p2).y = 0 := by
  rw [planeLocals_x_eq p0 p1 p2 hc hx, dot_comm, dot_cross_left]

theorem planeLocals_x_dot_z (hc : ¬Collinear p0 p1 p2) (hx : p0.x ≠ p1.x) :
    (planeLocals Real.sqrt p0 p1 p2).x.dot (planeLocals Real.sqrt p0 p1 p2).z = 0 := by
  rw [planeLocals_x_eq p0 p1 p2 hc hx, dot_comm, dot_cross_right]

/-- The frame is right-handed: `x × y = z`. -/
theorem planeLocals_x_cross_y (hc : ¬Collinear p0 p1 p2) (hx : p0.x ≠ p1.x) :
    (planeLocals Real.sqrt p0 p1 p2).x.cross (planeLocals Real.sqrt p0 p1 p2).y
      = (planeLocals Real.sqrt p0 p1 p2).z := by
  have h1 := planeLocals_y_unit p0 p1 p2 hc hx
  have h2 := planeLocals_y_dot_z p0 p1 p2 hc hx
  rw [planeLocals_x_eq p0 p1 p2 hc hx, cross_cross_left, dot_self, h1, dot_comm, h2]
  ext <;> simp

end PlaneFacts

section Matrix

variable {α : Type} [LinearOrderedField α] (sqrt : α → α)

/-- On a hull of three points or more the function returns the matrix of the frame of
its first three points. -/
theorem estimatePlaneCoordinate_cons (hull : Cloud α) (p0 p1 p2 : PointXYZRGB α)
    (rest : List (PointXYZRGB α)) (hp : hull.points = p0 :: p1 :: p2 :: rest) :
    estimatePlaneCoordinate sqrt hull
      = !![(planeLocals sqrt p0 p1 p2).x.x, (planeLocals sqrt p0 p1 p2).y.x,
            (planeLocals sqrt p0 p1 p2).z.x, (planeLocals sqrt p0 p1 p2).position.x;
           (planeLocals sqrt p0 p1 p2).x.y, (planeLocals sqrt p0 p1 p2).y.y,
            (planeLocals sqrt p0 p1 p2).z.y, (planeLocals sqrt p0 p1 p2).position.y;
           (planeLocals sqrt p0 p1 p2).x.z, (planeLocals sqrt p0 p1 p2).y.z,
            (planeLocals sqrt p0 p1 p2).z.z, (planeLocals sqrt p0 p1 p2).position.z;
           0, 0, 0, 1] := by
  unfold estimatePlaneCoordinate
  rw [hp]

theorem columnVec_zero (hull : Cloud α) (p0 p1 p2 : PointXYZRGB α)
    (rest : List (PointXYZRGB α)) (hp : hull.points = p0 :: p1 :: p2 :: rest) :
    columnVec (estimatePlaneCoordinate sqrt hull) 0 = (planeLocals sqrt p0 p1 p2).x := by
  rw [estimatePlaneCoordinate_cons sqrt hull p0 p1 p2 rest hp]
  ext <;> simp [columnVec]

theorem columnVec_one (hull : Cloud α) (p0 p1 p2 : PointXYZRGB α)
    (rest : List (PointXYZRGB α)) (hp : hull.points = p0 :: p1 :: p2 :: rest) :
    columnVec (estimatePlaneCoordinate sqrt hull) 1 = (planeLocals sqrt p0 p1 p2).y := by
  rw [estimatePlaneCoordinate_cons sqrt hull p0 p1 p2 rest hp]
  ext <;> simp [columnVec]

theorem columnVec_two (hull : Cloud α) (p0 p1 p2 : PointXYZRGB α)
    (rest : List (PointXYZRGB α)) (hp : hull.points = p0 :: p1 :: p2 :: rest) :
    columnVec (estimatePlaneCoordinate sqrt hull) 2 = (planeLocals sqrt p0 p1 p2).z := by
  rw [estimatePlaneCoordinate_cons sqrt hull p0 p1 p2 rest hp]
  ext <;> simp [columnVec]

theorem columnVec_three (hull : Cloud α) (p0 p1 p2 : PointXYZRGB α)
    (rest : List (PointXYZRGB α)) (hp : hull.points = p0 :: p1 :: p2 :: rest) :
    columnVec (estimatePlaneCoordinate sqrt hull) 3
      = (planeLocals sqrt p0 p1 p2).position := by
  rw [estimatePlaneCoordinate_cons sqrt hull p0 p1 p2 rest hp]
  ext <;> simp [columnVec]

theorem bottom_row (hull : Cloud α) :
    estimatePlaneCoordinate sqrt hull 3 0 = 0 ∧ estimatePlaneCoordinate sqrt hull 3 1 = 0
      ∧ estimatePlaneCoordinate sqrt hull 3 2 = 0
      ∧ estimatePlaneCoordinate sqrt hull 3 3 = 1 := by
  rcases h : hull.points with _ | ⟨a, _ | ⟨b, _ | ⟨c, r⟩⟩⟩
  · simp [estimatePlaneCoordinate, h]
  · simp [estimatePlaneCoordinate, h]
  · simp [estimatePlaneCoordinate, h]
  · simp [estimatePlaneCoordinate, h]

/-- The determinant of the upper-left block is the triple product of its columns. -/
theorem det_rotationBlock {R : Type} [CommRing R] (M : Matrix4 R) :
    (rotationBlock M).det
      = ((columnVec M 0).cross (columnVec M 1)).dot (columnVec M 2) := by
  simp only [rotationBlock, Matrix.det_fin_three, columnVec, Vector3.cross, Vector3.dot]
  simp
  ring

theorem norm_eq_one_of_unit {a : Vector3 ℝ} (h : a.squaredNorm = 1) :
    a.norm Real.sqrt = 1 := by
  simp [Vector3.norm, h]

end Matrix

namespace Vector3

/-- The Binet-Cauchy identity. -/
theorem binet_cauchy {R : Type} [CommRing R] (p q r s : Vector3 R) :
    (p.cross q).dot (r.cross s) = p.dot r * q.dot s - p.dot s * q.dot r := by
  simp only [cross, dot]; ring

/-- Cramer's rule for the coordinates of `v` in the basis `a`, `b`, `a × b`. -/
theorem expand_basis {R : Type} [CommRing R] (a b v : Vector3 R) :
    (a.cross b).squaredNorm • v
      = v.dot (a.cross b) • a.cross b + (v.cross b).dot (a.cross b) • a
        + (a.cross v).dot (a.cross b) • b := by
  ext <;> simp only [cross, dot, squaredNorm, add_x, add_y, add_z, smul_x, smul_y, smul_z]
    <;> ring

end Vector3

section Frame

open Vector3

variable (p0 p1 p2 : PointXYZRGB ℝ)

/-- Every vector is the sum of its components along the three returned axes. -/
theorem planeLocals_expand (hc : ¬Collinear p0 p1 p2) (hx : p0.x ≠ p1.x) (v : Vector3 ℝ) :
    v = v.dot (planeLocals Real.sqrt p0 p1 p2).x • (planeLocals Real.sqrt p0 p1 p2).x
        + v.dot (planeLocals Real.sqrt p0 p1 p2).y • (planeLocals Real.sqrt p0 p1 p2).y
        + v.dot (planeLocals Real.sqrt p0 p1 p2).z • (planeLocals Real.sqrt p0 p1 p2).z := by
  have hy := planeLocals_y_unit p0 p1 p2 hc hx
  have hz := planeLocals_z_unit p0 p1 p2 hc
  have hyz := planeLocals_y_dot_z p0 p1 p2 hc hx
  have hxu := planeLocals_x_unit p0 p1 p2 hc hx
  have hxe := planeLocals_x_eq p0 p1 p2 hc hx
  have key := expand_basis (planeLocals Real.sqrt p0 p1 p2).y
    (planeLocals Real.sqrt p0 p1 p2).z v
  rw [binet_cauchy, binet_cauchy, ← hxe, hxu, dot_self, dot_self, hy, hz, hyz,
    dot_comm (planeLocals Real.sqrt p0 p1 p2).z (planeLocals Real.sqrt p0 p1 p2).y, hyz]
    at key
  have kx := congrArg Vector3.x key
  have ky := congrArg Vector3.y key
  have kz := congrArg Vector3.z key
  simp only [add_x, add_y, add_z, smul_x, smul_y, smul_z] at kx ky kz
  ext
  · simp only [add_x, smul_x]; linarith
  · simp only [add_y, smul_y]; linarith
  · simp only [add_z, smul_z]; linarith

/-- The origin of the frame is the foot of the perpendicular from the world origin. -/
theorem planeLocals_position_eq (hc : ¬Collinear p0 p1 p2) (hx : p0.x ≠ p1.x) :
    (planeLocals Real.sqrt p0 p1 p2).position
      = (planeLocals Real.sqrt p0 p1 p2).B.dot (planeLocals Real.sqrt p0 p1 p2).z
          • (planeLocals Real.sqrt p0 p1 p2).z := by
  have key := planeLocals_expand p0 p1 p2 hc hx (planeLocals Real.sqrt p0 p1 p2).B
  have kx := congrArg Vector3.x key
  have ky := congrArg Vector3.y key
  have kz := congrArg Vector3.z key
  simp only [add_x, add_y, add_z, smul_x, smul_y, smul_z] at kx ky kz
  rw [planeLocals_position]
  ext
  · simp only [add_x, smul_x]; linarith
  · simp only [add_y, smul_y]; linarith
  · simp only [add_z, smul_z]; linarith

end Frame

/-! ## The plane frame: properties of `estimatePlaneCoordinate` -/

section PlaneFrame

open Vector3

/-- The three points of `sampleHull` are not collinear. -/
theorem sampleHull_not_collinear :
    ¬Collinear (⟨1, 0, 1, 0⟩ : PointXYZRGB ℝ) ⟨0, 0, 1, 0⟩ ⟨0, 1, 1, 0⟩ := by
  intro h
  have hz := congrArg Vector3.z h
  simp [Vector3.cross] at hz

/-- C1: on every hull whose first three points are not collinear and have
`P0.x ≠ P1.x`, `estimatePlaneCoordinate` returns a rigid transform: the three columns of
the upper-left 3x3 block are unit vectors, pairwise orthogonal and right-handed
(`x × y = z`, determinant 1), and the bottom row is `(0, 0, 0, 1)`; over the reals. -/
theorem estimatePlaneCoordinate_rigid (hull : Cloud ℝ) (p0 p1 p2 : PointXYZRGB ℝ)
    (rest : List (PointXYZRGB ℝ)) (hp : hull.points = p0 :: p1 :: p2 :: rest)
    (hc : ¬Collinear p0 p1 p2) (hx : p0.x ≠ p1.x) :
    IsRigidTransform Real.sqrt (estimatePlaneCoordinate Real.sqrt hull) := by
  have e0 := columnVec_zero Real.sqrt hull p0 p1 p2 rest hp
  have e1 := columnVec_one Real.sqrt hull p0 p1 p2 rest hp
  have e2 := columnVec_two Real.sqrt hull p0 p1 p2 rest hp
  have hxy := planeLocals_x_cross_y p0 p1 p2 hc hx
  refine ⟨⟨?_, ?_, ?_⟩, ⟨?_, ?_, ?_⟩, ⟨?_, ?_⟩, bottom_row Real.sqrt hull⟩
  · rw [e0]; exact norm_eq_one_of_unit (planeLocals_x_unit p0 p1 p2 hc hx)
  · rw [e1]; exact norm_eq_one_of_unit (planeLocals_y_unit p0 p1 p2 hc hx)
  · rw [e2]; exact norm_eq_one_of_unit (planeLocals_z_unit p0 p1 p2 hc)
  · rw [e0, e1]; exact planeLocals_x_dot_y p0 p1 p2 hc hx
  · rw [e1, e2]; exact planeLocals_y_dot_z p0 p1 p2 hc hx
  · rw [e2, e0, dot_comm]; exact planeLocals_x_dot_z p0 p1 p2 hc hx
  · rw [e0, e1, e2]; exact hxy
  · rw [det_rotationBlock, e0, e1, e2, hxy, dot_self]
    exact planeLocals_z_unit p0 p1 p2 hc

/-- The hull `sampleHull` yields a rigid transform; its points meet the hypotheses. -/
theorem estimatePlaneCoordinate_rigid_witness :
    (¬Collinear (⟨1, 0, 1, 0⟩ : PointXYZRGB ℝ) ⟨0, 0, 1, 0⟩ ⟨0, 1, 1, 0⟩ ∧ (1 : ℝ) ≠ 0)
      ∧ IsRigidTransform Real.sqrt (estimatePlaneCoordinate Real.sqrt (sampleHull ℝ)) :=
  ⟨⟨sampleHull_not_collinear, one_ne_zero⟩,
    estimatePlaneCoordinate_rigid (sampleHull ℝ) ⟨1, 0, 1, 0⟩ ⟨0, 0, 1, 0⟩ ⟨0, 1, 1, 0⟩ [] rfl
      sampleHull_not_collinear one_ne_zero⟩

/-- C7: on every hull whose first three points are not collinear and have
`P0.x ≠ P1.x`, the second column `y` of the returned transform has first component 0;
it is the blend `alpha * xx + beta * (z × xx)` whose coefficient `beta` is the positive
root (`beta > 0`, `alpha ^ 2 + beta ^ 2 = 1`); and the first column equals `y × z`;
over the reals. -/
theorem estimatePlaneCoordinate_blend (hull : Cloud ℝ) (p0 p1 p2 : PointXYZRGB ℝ)
    (rest : List (PointXYZRGB ℝ)) (hp : hull.points = p0 :: p1 :: p2 :: rest)
    (hc : ¬Collinear p0 p1 p2) (hx : p0.x ≠ p1.x) :
    estimatePlaneCoordinate Real.sqrt hull 0 1 = 0
      ∧ (0 < (planeLocals Real.sqrt p0 p1 p2).beta
          ∧ (planeLocals Real.sqrt p0 p1 p2).alpha ^ 2
              + (planeLocals Real.sqrt p0 p1 p2).beta ^ 2 = 1)
      ∧ columnVec (estimatePlaneCoordinate Real.sqrt hull) 1
          = (planeLocals Real.sqrt p0 p1 p2).alpha • (planeLocals Real.sqrt p0 p1 p2).xx
            + (planeLocals Real.sqrt p0 p1 p2).beta
                • (planeLocals Real.sqrt p0 p1 p2).z.cross (planeLocals Real.sqrt p0 p1 p2).xx
      ∧ columnVec (estimatePlaneCoordinate Real.sqrt hull) 0
          = (columnVec (estimatePlaneCoordinate Real.sqrt hull) 1).cross
              (columnVec (estimatePlaneCoordinate Real.sqrt hull) 2) := by
  have e0 := columnVec_zero Real.sqrt hull p0 p1 p2 rest hp
  have e1 := columnVec_one Real.sqrt hull p0 p1 p2 rest hp
  have e2 := columnVec_two Real.sqrt hull p0 p1 p2 rest hp
  have hy := planeLocals_y_eq p0 p1 p2 hc hx
  refine ⟨?_, ⟨planeLocals_beta_pos p0 p1 p2, planeLocals_alpha_beta p0 p1 p2⟩, ?_, ?_⟩
  · have h1 : estimatePlaneCoordinate Real.sqrt hull 0 1
        = (columnVec (estimatePlaneCoordinate Real.sqrt hull) 1).x := rfl
    rw [h1, e1, hy, add_x, smul_x, smul_x]
    exact planeLocals_blend_x p0 p1 p2 hx
  · rw [e1, hy, planeLocals_yy_eq p0 p1 p2 hc hx]
  · rw [e0, e1, e2]; exact planeLocals_x_eq p0 p1 p2 hc hx

/-- On the hull `sampleHull` the returned y-axis has first component 0; its points meet
the hypotheses. -/
theorem estimatePlaneCoordinate_blend_witness :
    (¬Collinear (⟨1, 0, 1, 0⟩ : PointXYZRGB ℝ) ⟨0, 0, 1, 0⟩ ⟨0, 1, 1, 0⟩ ∧ (1 : ℝ) ≠ 0)
      ∧ estimatePlaneCoordinate Real.sqrt (sampleHull ℝ) 0 1 = 0 :=
  ⟨⟨sampleHull_not_collinear, one_ne_zero⟩,
    (estimatePlaneCoordinate_blend (sampleHull ℝ) ⟨1, 0, 1, 0⟩ ⟨0, 0, 1, 0⟩ ⟨0, 1, 1, 0⟩ [] rfl
      sampleHull_not_collinear one_ne_zero).1⟩

/-- C9: on every hull whose first three points are not collinear, the third column `z`
of the returned transform is the unit vector `normalize (BC × BA)` or its opposite, with
`BA = P0 - P1` and `BC = P2 - P1`, and satisfies `dot (P1, z) ≤ 0`. -/
theorem estimatePlaneCoordinate_z_axis (hull : Cloud ℝ) (p0 p1 p2 : PointXYZRGB ℝ)
    (rest : List (PointXYZRGB ℝ)) (hp : hull.points = p0 :: p1 :: p2 :: rest)
    (hc : ¬Collinear p0 p1 p2) :
    (columnVec (estimatePlaneCoordinate Real.sqrt hull) 2
        = (Vector3.cross ⟨p2.x - p1.x, p2.y - p1.y, p2.z - p1.z⟩
            ⟨p0.x - p1.x, p0.y - p1.y, p0.z - p1.z⟩).normalized Real.sqrt
      ∨ columnVec (estimatePlaneCoordinate Real.sqrt hull) 2
        = -(Vector3.cross ⟨p2.x - p1.x, p2.y - p1.y, p2.z - p1.z⟩
            ⟨p0.x - p1.x, p0.y - p1.y, p0.z - p1.z⟩).normalized Real.sqrt)
      ∧ (columnVec (estimatePlaneCoordinate Real.sqrt hull) 2).norm Real.sqrt = 1
      ∧ p1.position.dot (columnVec (estimatePlaneCoordinate Real.sqrt hull) 2) ≤ 0 := by
  rw [columnVec_two Real.sqrt hull p0 p1 p2 rest hp]
  exact ⟨planeLocals_z_cases p0 p1 p2,
    norm_eq_one_of_unit (planeLocals_z_unit p0 p1 p2 hc), planeLocals_B_dot_z p0 p1 p2⟩

/-- On the hull `sampleHull` the returned z-axis is a unit vector with
`dot (P1, z) ≤ 0`; its points are not collinear. -/
theorem estimatePlaneCoordinate_z_axis_witness :
    ¬Collinear (⟨1, 0, 1, 0⟩ : PointXYZRGB ℝ) ⟨0, 0, 1, 0⟩ ⟨0, 1, 1, 0⟩
      ∧ (columnVec (estimatePlaneCoordinate Real.sqrt (sampleHull ℝ)) 2).norm Real.sqrt = 1
      ∧ Vector3.dot ⟨0, 0, 1⟩ (columnVec (estimatePlaneCoordinate Real.sqrt (sampleHull ℝ)) 2)
          ≤ 0 :=
  ⟨sampleHull_not_collinear,
    (estimatePlaneCoordinate_z_axis (sampleHull ℝ) ⟨1, 0, 1, 0⟩ ⟨0, 0, 1, 0⟩ ⟨0, 1, 1, 0⟩ [] rfl
      sampleHull_not_collinear).2⟩

/-- C10: on every hull whose first three points are not collinear and have
`P0.x ≠ P1.x`, the translation column `t` of the returned transform is
`P1 - dot (P1, x) x - dot (P1, y) y` for the returned axes `x` and `y`; its difference
from `P1` is orthogonal to the returned `z`, and `t = dot (P1, z) z`, the foot of the
perpendicular from the world origin onto the plane; over the reals. -/
theorem estimatePlaneCoordinate_origin (hull : Cloud ℝ) (p0 p1 p2 : PointXYZRGB ℝ)
    (rest : List (PointXYZRGB ℝ)) (hp : hull.points = p0 :: p1 :: p2 :: rest)
    (hc : ¬Collinear p0 p1 p2) (hx : p0.x ≠ p1.x) :
    columnVec (estimatePlaneCoordinate Real.sqrt hull) 3
        = p1.position
          + -(p1.position.dot (columnVec (estimatePlaneCoordinate Real.sqrt hull) 0)
              • columnVec (estimatePlaneCoordinate Real.sqrt hull) 0)
          + -(p1.position.dot (columnVec (estimatePlaneCoordinate Real.sqrt hull) 1)
              • columnVec (estimatePlaneCoordinate Real.sqrt hull) 1)
      ∧ (p1.position + -columnVec (estimatePlaneCoordinate Real.sqrt hull) 3).dot
          (columnVec (estimatePlaneCoordinate Real.sqrt hull) 2) = 0
      ∧ columnVec (estimatePlaneCoordinate Real.sqrt hull) 3
        = p1.position.dot (columnVec (estimatePlaneCoordinate Real.sqrt hull) 2)
            • columnVec (estimatePlaneCoordinate Real.sqrt hull) 2 := by
  rw [columnVec_zero Real.sqrt hull p0 p1 p2 rest hp,
    columnVec_one Real.sqrt hull p0 p1 p2 rest hp,
    columnVec_two Real.sqrt hull p0 p1 p2 rest hp,
    columnVec_three Real.sqrt hull p0 p1 p2 rest hp]
  have hB : p1.position = (planeLocals Real.sqrt p0 p1 p2).B := rfl
  have hz := planeLocals_z_unit p0 p1 p2 hc
  have hpos := planeLocals_position_eq p0 p1 p2 hc hx
  rw [hB]
  refine ⟨?_, ?_, hpos⟩
  · rw [planeLocals_position]
    ext <;> simp only [add_x, add_y, add_z, neg_x, neg_y, neg_z, smul_x, smul_y, smul_z]
      <;> ring
  · rw [hpos]
    simp only [squaredNorm] at hz
    simp only [dot, add_x, add_y, add_z, neg_x, neg_y, neg_z, smul_x, smul_y, smul_z]
    linear_combination
      (-((planeLocals Real.sqrt p0 p1 p2).B.x * (planeLocals Real.sqrt p0 p1 p2).z.x
        + (planeLocals Real.sqrt p0 p1 p2).B.y * (planeLocals Real.sqrt p0 p1 p2).z.y
        + (planeLocals Real.sqrt p0 p1 p2).B.z * (planeLocals Real.sqrt p0 p1 p2).z.z)) * hz

/-- On the hull `sampleHull` the returned origin is `dot (P1, z) z`; its points meet
the hypotheses. -/
theorem estimatePlaneCoordinate_origin_witness :
    (¬Collinear (⟨1, 0, 1, 0⟩ : PointXYZRGB ℝ) ⟨0, 0, 1, 0⟩ ⟨0, 1, 1, 0⟩ ∧ (1 : ℝ) ≠ 0)
      ∧ columnVec (estimatePlaneCoordinate Real.sqrt (sampleHull ℝ)) 3
        = Vector3.dot ⟨0, 0, 1⟩ (columnVec (estimatePlaneCoordinate Real.sqrt (sampleHull ℝ)) 2)
            • columnVec (estimatePlaneCoordinate Real.sqrt (sampleHull ℝ)) 2 :=
  ⟨⟨sampleHull_not_collinear, one_ne_zero⟩,
    (estimatePlaneCoordinate_origin (sampleHull ℝ) ⟨1, 0, 1, 0⟩ ⟨0, 0, 1, 0⟩ ⟨0, 1, 1, 0⟩ [] rfl
      sampleHull_not_collinear one_ne_zero).2.2⟩

end PlaneFrame

/-! ## Independence of the hull winding -/

namespace Vector3

theorem comb_cross {R : Type} [CommRing R] (a b : R) (u v w : Vector3 R) :
    (a • u + b • v).cross w = a • u.cross w + b • v.cross w := by
  ext <;> simp only [cross, add_x, add_y, add_z, smul_x, smul_y, smul_z] <;> ring

theorem cross_swap {R : Type} [CommRing R] (u v : Vector3 R) :
    u.cross v = -v.cross u := by
  ext <;> simp only [cross, neg_x, neg_y, neg_z] <;> ring

/-- A unit vector orthogonal to `z` and to the world x-axis, on the side where
`(y × z).x` is positive, is determined by `z`. -/
theorem eq_of_canonical {z y : Vector3 ℝ} (h1 : y.x = 0) (h2 : y.dot z = 0)
    (h3 : y.squaredNorm = 1) (h4 : 0 < (y.cross z).x) :
    y = ⟨0, z.z / Real.sqrt (z.y * z.y + z.z * z.z),
          -z.y / Real.sqrt (z.y * z.y + z.z * z.z)⟩ := by
  simp only [dot, h1, zero_mul, zero_add] at h2
  simp only [squaredNorm, h1, mul_zero, zero_add] at h3
  simp only [cross] at h4
  have hsq : (y.y * z.z - y.z * z.y) ^ 2 = z.y * z.y + z.z * z.z := by
    have e : (y.y * z.z - y.z * z.y) ^ 2
        = (y.y * y.y + y.z * y.z) * (z.y * z.y + z.z * z.z) - (y.y * z.y + y.z * z.z) ^ 2 := by
      ring
    rw [e, h2, h3]; ring
  have hs : Real.sqrt (z.y * z.y + z.z * z.z) = y.y * z.z - y.z * z.y := by
    rw [← hsq]
    exact Real.sqrt_sq (le_of_lt h4)
  rw [hs]
  have hne : y.y * z.z - y.z * z.y ≠ 0 := ne_of_gt h4
  ext
  · exact h1
  · show y.y = z.z / (y.y * z.z - y.z * z.y)
    rw [eq_div_iff hne]
    linear_combination z.z * h3 - y.z * h2
  · show y.z = -z.y / (y.y * z.z - y.z * z.y)
    rw [eq_div_iff hne]
    linear_combination y.y * h2 - z.y * h3

end Vector3

section Winding

open Vector3

variable (p0 p1 p2 : PointXYZRGB ℝ)

/-- The first component of the returned x-axis is positive. -/
theorem planeLocals_x_x_pos (hc : ¬Collinear p0 p1 p2) (hx : p0.x ≠ p1.x) :
    0 < (planeLocals Real.sqrt p0 p1 p2).x.x := by
  have hz := planeLocals_z_unit p0 p1 p2 hc
  have hxz := planeLocals_xx_dot_z p0 p1 p2
  have hyy := planeLocals_yy_eq p0 p1 p2 hc hx
  have hpos := planeLocals_xx_pos p0 p1 p2 hx
  have hb := planeLocals_beta_pos p0 p1 p2
  have e : (planeLocals Real.sqrt p0 p1 p2).x
      = (planeLocals Real.sqrt p0 p1 p2).beta • (planeLocals Real.sqrt p0 p1 p2).xx
        + -((planeLocals Real.sqrt p0 p1 p2).alpha • (planeLocals Real.sqrt p0 p1 p2).yy) := by
    have e1 : (planeLocals Real.sqrt p0 p1 p2).xx.cross (planeLocals Real.sqrt p0 p1 p2).z
        = -(planeLocals Real.sqrt p0 p1 p2).yy := by
      rw [hyy, cross_swap]
    have e2 : (planeLocals Real.sqrt p0 p1 p2).yy.cross (planeLocals Real.sqrt p0 p1 p2).z
        = (planeLocals Real.sqrt p0 p1 p2).xx := by
      rw [hyy, cross_cross_left, dot_self, hz, hxz]
      ext <;> simp
    rw [planeLocals_x_eq p0 p1 p2 hc hx, planeLocals_y_eq p0 p1 p2 hc hx, comb_cross, e1, e2]
    ext <;> simp only [add_x, add_y, add_z, neg_x, neg_y, neg_z, smul_x, smul_y, smul_z]
      <;> ring
  rw [e, add_x, neg_x, smul_x, smul_x, planeLocals_alpha, planeLocals_tmp_eq]
  have h2 : 0 ≤ (planeLocals Real.sqrt p0 p1 p2).yy.x * (planeLocals Real.sqrt p0 p1 p2).yy.x
      / (planeLocals Real.sqrt p0 p1 p2).xx.x :=
    div_nonneg (mul_self_nonneg _) (le_of_lt hpos)
  have h3 : (planeLocals Real.sqrt p0 p1 p2).beta * (planeLocals Real.sqrt p0 p1 p2).xx.x
      + -(-(planeLocals Real.sqrt p0 p1 p2).beta
            * ((planeLocals Real.sqrt p0 p1 p2).yy.x / (planeLocals Real.sqrt p0 p1 p2).xx.x)
          * (planeLocals Real.sqrt p0 p1 p2).yy.x)
      = (planeLocals Real.sqrt p0 p1 p2).beta
        * ((planeLocals Real.sqrt p0 p1 p2).xx.x
          + (planeLocals Real.sqrt p0 p1 p2).yy.x * (planeLocals Real.sqrt p0 p1 p2).yy.x
              / (planeLocals Real.sqrt p0 p1 p2).xx.x) := by
    ring
  rw [h3]
  exact mul_pos hb (by linarith)

/-- The returned y-axis is determined by the returned z-axis. -/
theorem planeLocals_y_canonical (hc : ¬Collinear p0 p1 p2) (hx : p0.x ≠ p1.x) :
    (planeLocals Real.sqrt p0 p1 p2).y
      = ⟨0, (planeLocals Real.sqrt p0 p1 p2).z.z
            / Real.sqrt ((planeLocals Real.sqrt p0 p1 p2).z.y * (planeLocals Real.sqrt p0 p1 p2).z.y
              + (planeLocals Real.sqrt p0 p1 p2).z.z * (planeLocals Real.sqrt p0 p1 p2).z.z),
          -(planeLocals Real.sqrt p0 p1 p2).z.y
            / Real.sqrt ((planeLocals Real.sqrt p0 p1 p2).z.y * (planeLocals Real.sqrt p0 p1 p2).z.y
              + (planeLocals Real.sqrt p0 p1 p2).z.z * (planeLocals Real.sqrt p0 p1 p2).z.z)⟩ := by
  apply eq_of_canonical
  · rw [planeLocals_y_eq p0 p1 p2 hc hx, add_x, smul_x, smul_x]
    exact planeLocals_blend_x p0 p1 p2 hx
  · exact planeLocals_y_dot_z p0 p1 p2 hc hx
  · exact planeLocals_y_unit p0 p1 p2 hc hx
  · rw [← planeLocals_x_eq p0 p1 p2 hc hx]
    exact planeLocals_x_x_pos p0 p1 p2 hc hx

/-- Collinearity does not depend on the order of the outer points. -/
theorem not_collinear_reversed (hc : ¬Collinear p0 p1 p2) : ¬Collinear p2 p1 p0 := by
  intro h
  apply hc
  unfold Collinear at h ⊢
  rw [cross_swap, h]
  ext <;> simp

/-- When the plane of the three points misses the world origin, the returned z-axis is
the same for both windings. -/
theorem planeLocals_z_reversed (hc : ¬Collinear p0 p1 p2)
    (ho : p1.position.dot (Vector3.cross ⟨p2.x - p1.x, p2.y - p1.y, p2.z - p1.z⟩
      ⟨p0.x - p1.x, p0.y - p1.y, p0.z - p1.z⟩) ≠ 0) :
    (planeLocals Real.sqrt p2 p1 p0).z = (planeLocals Real.sqrt p0 p1 p2).z := by
  have hn : (planeLocals Real.sqrt p0 p1 p2).BC.cross (planeLocals Real.sqrt p0 p1 p2).BA ≠ 0 :=
    hc
  have hnorm := norm_pos hn
  have hrev : ((planeLocals Real.sqrt p2 p1 p0).BC.cross
      (planeLocals Real.sqrt p2 p1 p0).BA).normalized Real.sqrt
      = -((planeLocals Real.sqrt p0 p1 p2).BC.cross
          (planeLocals Real.sqrt p0 p1 p2).BA).normalized Real.sqrt := by
    rw [← normalized_neg, ← cross_swap]
    rfl
  have hB : (planeLocals Real.sqrt p2 p1 p0).B = (planeLocals Real.sqrt p0 p1 p2).B := rfl
  have hd : (planeLocals Real.sqrt p0 p1 p2).B.dot
      (((planeLocals Real.sqrt p0 p1 p2).BC.cross
        (planeLocals Real.sqrt p0 p1 p2).BA).normalized Real.sqrt) ≠ 0 := by
    rw [normalized_eq_smul, dot_comm, smul_dot, dot_comm]
    exact mul_ne_zero (inv_ne_zero (ne_of_gt hnorm)) ho
  rw [planeLocals_z, planeLocals_z, hrev, hB, dot_neg_right]
  rcases lt_or_gt_of_ne hd with h | h
  · rw [if_pos (by linarith), if_neg (by linarith)]
    ext <;> simp
  · rw [if_neg (by linarith), if_pos h]

/-- The three points of `windingHull` are not collinear. -/
theorem windingHull_not_collinear :
    ¬Collinear (⟨1, 0, 1, 0⟩ : PointXYZRGB ℝ) ⟨0, 0, 1, 0⟩ ⟨1, 1, 1, 0⟩ := by
  intro h
  have hz := congrArg Vector3.z h
  simp [Vector3.cross] at hz

/-- The plane of the three points of `windingHull` misses the world origin. -/
theorem windingHull_off_origin :
    (⟨0, 0, 1, 0⟩ : PointXYZRGB ℝ).position.dot
      (Vector3.cross ⟨1 - 0, 1 - 0, 1 - 1⟩ ⟨1 - 0, 0 - 0, 1 - 1⟩) ≠ 0 := by
  simp [Vector3.cross, Vector3.dot, PointXYZRGB.position]

/-- C8: the frame does not depend on the hull winding: for three non-collinear points
whose plane misses the world origin, with `P0.x ≠ P1.x` and `P2.x ≠ P1.x`,
`estimatePlaneCoordinate` returns the same transform on a hull that starts
`P0, P1, P2` and on a hull that starts `P2, P1, P0`; over the reals. -/
theorem estimatePlaneCoordinate_winding (hull hull' : Cloud ℝ) (p0 p1 p2 : PointXYZRGB ℝ)
    (rest rest' : List (PointXYZRGB ℝ)) (hp : hull.points = p0 :: p1 :: p2 :: rest)
    (hp' : hull'.points = p2 :: p1 :: p0 :: rest') (hc : ¬Collinear p0 p1 p2)
    (ho : p1.position.dot (Vector3.cross ⟨p2.x - p1.x, p2.y - p1.y, p2.z - p1.z⟩
      ⟨p0.x - p1.x, p0.y - p1.y, p0.z - p1.z⟩) ≠ 0)
    (hx0 : p0.x ≠ p1.x) (hx2 : p2.x ≠ p1.x) :
    estimatePlaneCoordinate Real.sqrt hull = estimatePlaneCoordinate Real.sqrt hull' := by
  have hc' := not_collinear_reversed p0 p1 p2 hc
  have hz := planeLocals_z_reversed p0 p1 p2 hc ho
  have hy : (planeLocals Real.sqrt p2 p1 p0).y = (planeLocals Real.sqrt p0 p1 p2).y := by
    rw [planeLocals_y_canonical p2 p1 p0 hc' hx2, planeLocals_y_canonical p0 p1 p2 hc hx0, hz]
  have hxe : (planeLocals Real.sqrt p2 p1 p0).x = (planeLocals Real.sqrt p0 p1 p2).x := by
    rw [planeLocals_x_eq p2 p1 p0 hc' hx2, planeLocals_x_eq p0 p1 p2 hc hx0, hy, hz]
  have hB : (planeLocals Real.sqrt p2 p1 p0).B = (planeLocals Real.sqrt p0 p1 p2).B := rfl
  have hpos : (planeLocals Real.sqrt p2 p1 p0).position
      = (planeLocals Real.sqrt p0 p1 p2).position := by
    rw [planeLocals_position_eq p2 p1 p0 hc' hx2, planeLocals_position_eq p0 p1 p2 hc hx0,
      hz, hB]
  rw [estimatePlaneCoordinate_cons Real.sqrt hull p0 p1 p2 rest hp,
    estimatePlaneCoordinate_cons Real.sqrt hull' p2 p1 p0 rest' hp', hz, hy, hxe, hpos]

/-- The hulls `windingHull` and `windingHullReversed` yield the same transform; their
points meet the hypotheses. -/
theorem estimatePlaneCoordinate_winding_witness :
    (¬Collinear (⟨1, 0, 1, 0⟩ : PointXYZRGB ℝ) ⟨0, 0, 1, 0⟩ ⟨1, 1, 1, 0⟩
        ∧ (⟨0, 0, 1, 0⟩ : PointXYZRGB ℝ).position.dot
            (Vector3.cross ⟨1 - 0, 1 - 0, 1 - 1⟩ ⟨1 - 0, 0 - 0, 1 - 1⟩) ≠ 0
        ∧ (1 : ℝ) ≠ 0)
      ∧ estimatePlaneCoordinate Real.sqrt (windingHull ℝ)
        = estimatePlaneCoordinate Real.sqrt (windingHullReversed ℝ) :=
  ⟨⟨windingHull_not_collinear, windingHull_off_origin, one_ne_zero⟩,
    estimatePlaneCoordinate_winding (windingHull ℝ) (windingHullReversed ℝ) ⟨1, 0, 1, 0⟩
      ⟨0, 0, 1, 0⟩ ⟨1, 1, 1, 0⟩ [] [] rfl rfl windingHull_not_collinear windingHull_off_origin
      one_ne_zero one_ne_zero⟩

end Winding

/-! ## The frame callback -/

/-- With a normal for every point the loop over the points does not fault. -/
theorem attachNormals_ok {α : Type} (points : List (PointXYZRGB α)) :
    ∀ normals : List (Normal α), points.length ≤ normals.length →
      ∃ pts, attachNormals points normals = Except.ok pts ∧ pts.length = points.length := by
  induction points with
  | nil => intro normals _; exact ⟨[], rfl, rfl⟩
  | cons p ps ih =>
    intro normals h
    cases normals with
    | nil => simp at h
    | cons n ns =>
      obtain ⟨pts, hpts, hlen⟩ := ih ns (by simpa using h)
      refine ⟨{ x := p.x, y := p.y, z := p.z, rgb := p.rgb, normal0 := n.normal0,
                normal1 := n.normal1, normal2 := n.normal2 } :: pts, ?_, by simp [hlen]⟩
      simp only [attachNormals, hpts]

/-- The tracking block, when the estimator returns a normal for every point: no fault,
one `setInputCloud` and one `compute`, nothing else handed to the tracker. -/
theorem cloud_cb_track_ok {α : Type} (env : Collaborators α)
    (self : OpenNISegmentTracking α) (down : Cloud α)
    (hlen : down.points.length ≤ (env.normalEstimation down).points.length) :
    (cloud_cb_track env self down).fault = none
      ∧ (cloud_cb_track env self down).state.firstp_ = self.firstp_
      ∧ (cloud_cb_track env self down).state.calls
          = self.calls ++ [Call.normalEstimation, Call.setInputCloud, Call.compute]
      ∧ (cloud_cb_track env self down).state.tracker_.reference = self.tracker_.reference
      ∧ (cloud_cb_track env self down).state.tracker_.min_indices = self.tracker_.min_indices
      ∧ (cloud_cb_track env self down).state.tracker_.trans = self.tracker_.trans
      ∧ (cloud_cb_track env self down).state.tracker_.computes = self.tracker_.computes + 1
      ∧ ∃ pts, pts.length = down.points.length
          ∧ (cloud_cb_track env self down).state.tracker_.input
            = some { points := pts, width := down.width, height := down.height,
                     is_dense := down.is_dense } := by
  obtain ⟨pts, hpts, hl⟩ := attachNormals_ok down.points (env.normalEstimation down).points hlen
  simp only [cloud_cb_track, hpts, tracking]
  refine ⟨trivial, trivial, ?_, trivial, trivial, trivial, trivial, pts, hl, rfl⟩
  simp

section Callback

variable {α : Type} [LinearOrderedField α] (env : Collaborators α)

/-- In the first phase, with at most three inliers, the callback ends after plane
segmentation. -/
theorem cloud_cb_skip (self : OpenNISegmentTracking α) (cloud : Cloud α) (rand : Nat)
    (hs : self.firstp_ = true)
    (hin : ¬(env.planeSegmentation (env.gridSample (env.filterPassThrough cloud))).2.length
      > 3) :
    cloud_cb env self cloud rand
      = { state :=
            { self with
                cloud_pass_ := some (env.filterPassThrough cloud),
                cloud_pass_downsampled_ := some (env.gridSample (env.filterPassThrough cloud)),
                calls := self.calls ++ [Call.filterPassThrough] ++ [Call.gridSample]
                  ++ [Call.planeSegmentation],
                new_cloud_ := true },
          fault := none } := by
  simp only [cloud_cb, hs, if_true, hin, if_false]

/-- In the first phase, with more than three inliers, the callback runs the
acquisition block. -/
theorem cloud_cb_acquisition (self : OpenNISegmentTracking α) (cloud : Cloud α) (rand : Nat)
    (hs : self.firstp_ = true)
    (hin : (env.planeSegmentation (env.gridSample (env.filterPassThrough cloud))).2.length
      > 3) :
    cloud_cb env self cloud rand
      = cloud_cb_acquire env
          { self with
              cloud_pass_ := some (env.filterPassThrough cloud),
              cloud_pass_downsampled_ := some (env.gridSample (env.filterPassThrough cloud)),
              calls := self.calls ++ [Call.filterPassThrough] ++ [Call.gridSample]
                ++ [Call.planeSegmentation] }
          (env.gridSample (env.filterPassThrough cloud))
          (env.planeSegmentation (env.gridSample (env.filterPassThrough cloud))).1 rand := by
  simp only [cloud_cb, hs, if_true, hin]

/-- In the Tracking state the callback runs the tracking block. -/
theorem cloud_cb_tracking (self : OpenNISegmentTracking α) (cloud : Cloud α) (rand : Nat)
    (hs : self.firstp_ = false) :
    cloud_cb env self cloud rand
      = cloud_cb_track env
          { self with
              cloud_pass_ := some (env.filterPassThrough cloud),
              cloud_pass_downsampled_ := some (env.gridSample (env.filterPassThrough cloud)),
              calls := self.calls ++ [Call.filterPassThrough] ++ [Call.gridSample] }
          (env.gridSample (env.filterPassThrough cloud)) := by
  simp [cloud_cb, hs]

/-- The acquisition block never updates the tracker: `compute` and `setInputCloud` are
not among its calls. -/
theorem cloud_cb_acquire_no_update (self : OpenNISegmentTracking α) (down : Cloud α)
    (coefficients : List α) (rand : Nat) :
    (cloud_cb_acquire env self down coefficients rand).state.tracker_.computes
        = self.tracker_.computes
      ∧ (cloud_cb_acquire env self down coefficients rand).state.tracker_.input
        = self.tracker_.input
      ∧ ∃ rest, (cloud_cb_acquire env self down coefficients rand).state.calls
          = self.calls ++ rest ∧ Call.compute ∉ rest ∧ Call.setInputCloud ∉ rest := by
  unfold cloud_cb_acquire
  dsimp only
  split_ifs with h
  · refine ⟨rfl, rfl, [Call.planeProjection, Call.convexHull, Call.estimatePlaneCoordinate,
      Call.setTrans, Call.polygonExtractSegment, Call.extractPositiveFilter,
      Call.euclideanSegment, Call.rand], ?_, by decide, by decide⟩
    simp
  · split
    · refine ⟨rfl, rfl, [Call.planeProjection, Call.convexHull, Call.estimatePlaneCoordinate,
        Call.setTrans, Call.polygonExtractSegment, Call.extractPositiveFilter,
        Call.euclideanSegment, Call.rand], ?_, by decide, by decide⟩
      simp
    · split
      · refine ⟨rfl, rfl, [Call.planeProjection, Call.convexHull,
          Call.estimatePlaneCoordinate, Call.setTrans, Call.polygonExtractSegment,
          Call.extractPositiveFilter, Call.euclideanSegment, Call.rand,
          Call.normalEstimation, Call.addNormalToCloud], ?_, by decide, by decide⟩
        simp
      · refine ⟨rfl, rfl, [Call.planeProjection, Call.convexHull,
          Call.estimatePlaneCoordinate, Call.setTrans, Call.polygonExtractSegment,
          Call.extractPositiveFilter, Call.euclideanSegment, Call.rand,
          Call.normalEstimation, Call.addNormalToCloud, Call.setReferenceCloud,
          Call.setMinIndices], ?_, by decide, by decide⟩
        simp

/-- The acquisition block releases the latch only when it has handed the reference cloud
and the minimum number of indices to the tracker, without a fault. -/
theorem cloud_cb_acquire_latch (self : OpenNISegmentTracking α) (down : Cloud α)
    (coefficients : List α) (rand : Nat) (hs : self.firstp_ = true) :
    (cloud_cb_acquire env self down coefficients rand).state.firstp_ = true
      ∨ ((cloud_cb_acquire env self down coefficients rand).state.firstp_ = false
        ∧ (cloud_cb_acquire env self down coefficients rand).fault = none
        ∧ (∃ ref, (cloud_cb_acquire env self down coefficients rand).state.tracker_.reference
              = some ref
            ∧ (cloud_cb_acquire env self down coefficients rand).state.tracker_.min_indices
              = some (ref.points.length / 2))
        ∧ (cloud_cb_acquire env self down coefficients rand).state.calls
          = self.calls ++ [Call.planeProjection, Call.convexHull,
              Call.estimatePlaneCoordinate, Call.setTrans, Call.polygonExtractSegment,
              Call.extractPositiveFilter, Call.euclideanSegment, Call.rand,
              Call.normalEstimation, Call.addNormalToCloud, Call.setReferenceCloud,
              Call.setMinIndices]) := by
  unfold cloud_cb_acquire
  dsimp only
  split_ifs with h
  · exact Or.inl hs
  · split
    · exact Or.inl hs
    · split
      · exact Or.inl hs
      · rename_i ref_cloud _
        refine Or.inr ⟨rfl, rfl, ⟨ref_cloud, rfl, rfl⟩, ?_⟩
        simp

/-- In the first phase the callback always starts with the two filters and plane
segmentation, and never updates the tracker. -/
theorem cloud_cb_first_calls (self : OpenNISegmentTracking α) (cloud : Cloud α) (rand : Nat)
    (hs : self.firstp_ = true) :
    (cloud_cb env self cloud rand).state.tracker_.computes = self.tracker_.computes
      ∧ (cloud_cb env self cloud rand).state.tracker_.input = self.tracker_.input
      ∧ ∃ rest, (cloud_cb env self cloud rand).state.calls
          = self.calls
            ++ [Call.filterPassThrough, Call.gridSample, Call.planeSegmentation] ++ rest
        ∧ Call.compute ∉ rest ∧ Call.setInputCloud ∉ rest := by
  by_cases hin :
      (env.planeSegmentation (env.gridSample (env.filterPassThrough cloud))).2.length > 3
  · rw [cloud_cb_acquisition env self cloud rand hs hin]
    obtain ⟨h1, h2, rest, h3, h4, h5⟩ := cloud_cb_acquire_no_update env
      { self with
          cloud_pass_ := some (env.filterPassThrough cloud),
          cloud_pass_downsampled_ := some (env.gridSample (env.filterPassThrough cloud)),
          calls := self.calls ++ [Call.filterPassThrough] ++ [Call.gridSample]
            ++ [Call.planeSegmentation] }
      (env.gridSample (env.filterPassThrough cloud))
      (env.planeSegmentation (env.gridSample (env.filterPassThrough cloud))).1 rand
    refine ⟨h1, h2, rest, ?_, h4, h5⟩
    rw [h3]
    simp
  · rw [cloud_cb_skip env self cloud rand hs hin]
    exact ⟨rfl, rfl, [], by simp, by simp, by simp⟩

/-- In the first phase the latch is released only by a completed acquisition. -/
theorem cloud_cb_first_latch (self : OpenNISegmentTracking α) (cloud : Cloud α) (rand : Nat)
    (hs : self.firstp_ = true) :
    (cloud_cb env self cloud rand).state.firstp_ = true
      ∨ ((cloud_cb env self cloud rand).state.firstp_ = false
        ∧ (cloud_cb env self cloud rand).fault = none
        ∧ (∃ ref, (cloud_cb env self cloud rand).state.tracker_.reference = some ref
            ∧ (cloud_cb env self cloud rand).state.tracker_.min_indices
              = some (ref.points.length / 2))
        ∧ (cloud_cb env self cloud rand).state.calls = self.calls ++ acquisitionCalls) := by
  by_cases hin :
      (env.planeSegmentation (env.gridSample (env.filterPassThrough cloud))).2.length > 3
  · rw [cloud_cb_acquisition env self cloud rand hs hin]
    rcases cloud_cb_acquire_latch env
      { self with
          cloud_pass_ := some (env.filterPassThrough cloud),
          cloud_pass_downsampled_ := some (env.gridSample (env.filterPassThrough cloud)),
          calls := self.calls ++ [Call.filterPassThrough] ++ [Call.gridSample]
            ++ [Call.planeSegmentation] }
      (env.gridSample (env.filterPassThrough cloud))
      (env.planeSegmentation (env.gridSample (env.filterPassThrough cloud))).1 rand hs
      with h | ⟨h1, h2, h3, h4⟩
    · exact Or.inl h
    · refine Or.inr ⟨h1, h2, h3, ?_⟩
      rw [h4]
      simp [acquisitionCalls]
  · rw [cloud_cb_skip env self cloud rand hs hin]
    exact Or.inl hs

/-- A frame without fault hands its state to the next frame. -/
theorem runFrames_cons (self : OpenNISegmentTracking α) (frame : Cloud α × Nat)
    (frames : List (Cloud α × Nat))
    (h : (cloud_cb env self frame.1 frame.2).fault = none) :
    runFrames env self (frame :: frames)
      = runFrames env (cloud_cb env self frame.1 frame.2).state frames := by
  rw [runFrames]
  generalize cloud_cb env self frame.1 frame.2 = out at h
  cases out with
  | mk st fl =>
    simp only at h
    subst h
    rfl

/-- One frame in the Tracking state, with a normal for every point. -/
theorem cloud_cb_tracking_ok
    (hne : ∀ cloud : Cloud α, (env.normalEstimation cloud).points.length = cloud.points.length)
    (self : OpenNISegmentTracking α) (cloud : Cloud α) (rand : Nat)
    (hs : self.firstp_ = false) :
    (cloud_cb env self cloud rand).fault = none
      ∧ (cloud_cb env self cloud rand).state.firstp_ = false
      ∧ (cloud_cb env self cloud rand).state.calls = self.calls ++ trackingCalls
      ∧ (cloud_cb env self cloud rand).state.tracker_.reference = self.tracker_.reference
      ∧ (cloud_cb env self cloud rand).state.tracker_.computes
        = self.tracker_.computes + 1 := by
  rw [cloud_cb_tracking env self cloud rand hs]
  obtain ⟨h1, h2, h3, h4, _, _, h7, _⟩ := cloud_cb_track_ok env
    { self with
        cloud_pass_ := some (env.filterPassThrough cloud),
        cloud_pass_downsampled_ := some (env.gridSample (env.filterPassThrough cloud)),
        calls := self.calls ++ [Call.filterPassThrough] ++ [Call.gridSample] }
    (env.gridSample (env.filterPassThrough cloud)) (le_of_eq (hne _).symm)
  refine ⟨h1, h2.trans hs, ?_, h4, h7⟩
  rw [h3]
  simp [trackingCalls]

/-- Any number of frames in the Tracking state, with a normal for every point. -/
theorem runFrames_tracking
    (hne : ∀ cloud : Cloud α, (env.normalEstimation cloud).points.length = cloud.points.length)
    (frames : List (Cloud α × Nat)) :
    ∀ self : OpenNISegmentTracking α, self.firstp_ = false →
      (runFrames env self frames).fault = none
        ∧ (runFrames env self frames).state.firstp_ = false
        ∧ (runFrames env self frames).state.tracker_.reference = self.tracker_.reference
        ∧ (runFrames env self frames).state.calls
          = self.calls ++ frames.flatMap (fun _ => trackingCalls)
        ∧ (runFrames env self frames).state.tracker_.computes
          = self.tracker_.computes + frames.length := by
  induction frames with
  | nil =>
    intro self hs
    exact ⟨rfl, hs, rfl, by simp [runFrames], by simp [runFrames]⟩
  | cons frame frames ih =>
    intro self hs
    obtain ⟨h1, h2, h3, h4, h5⟩ := cloud_cb_tracking_ok env hne self frame.1 frame.2 hs
    obtain ⟨i1, i2, i3, i4, i5⟩ := ih (cloud_cb env self frame.1 frame.2).state h2
    rw [runFrames_cons env self frame frames h1]
    refine ⟨i1, i2, i3.trans h4, ?_, ?_⟩
    · rw [i4, h3]; simp
    · rw [i5, h5]; simp; omega

/-- With no cluster the acquisition block stops on the remainder `rand () % 0`. -/
theorem cloud_cb_acquire_zero_clusters (self : OpenNISegmentTracking α) (down : Cloud α)
    (coefficients : List α) (rand : Nat)
    (h0 : env.euclideanSegment
        (env.extractPositiveFilter down
          (env.polygonExtractSegment (env.convexHull (env.planeProjection down coefficients))
            down)) = []) :
    (cloud_cb_acquire env self down coefficients rand).fault = some Fault.moduloByZero
      ∧ (cloud_cb_acquire env self down coefficients rand).state.calls
        = self.calls ++ [Call.planeProjection, Call.convexHull, Call.estimatePlaneCoordinate,
            Call.setTrans, Call.polygonExtractSegment, Call.extractPositiveFilter,
            Call.euclideanSegment, Call.rand] := by
  unfold cloud_cb_acquire
  dsimp only
  split_ifs with h
  · exact ⟨rfl, by simp⟩
  · exact absurd (by rw [h0]; rfl) h

end Callback

/-! ## Degenerate hulls -/

section Degenerate

open Vector3

/-- On collinear points the normal `BC × BA` is zero, and so is the returned `z`. -/
theorem planeLocals_z_collinear (p0 p1 p2 : PointXYZRGB ℝ) (h : Collinear p0 p1 p2) :
    (planeLocals Real.sqrt p0 p1 p2).z = 0 := by
  have hn : (planeLocals Real.sqrt p0 p1 p2).BC.cross (planeLocals Real.sqrt p0 p1 p2).BA = 0 :=
    h
  have h0 : (0 : Vector3 ℝ).normalized Real.sqrt = 0 := by
    ext <;> simp [normalized]
  have hd : (planeLocals Real.sqrt p0 p1 p2).B.dot 0 = 0 := by
    simp [dot]
  rw [planeLocals_z, hn, h0, hd, if_neg (lt_irrefl 0)]

/-- On a hull whose first three points are collinear the returned matrix is not the
identity: its entry `(2, 2)` is not 1. -/
theorem estimatePlaneCoordinate_collinear_ne_one (hull : Cloud ℝ) (p0 p1 p2 : PointXYZRGB ℝ)
    (rest : List (PointXYZRGB ℝ)) (hp : hull.points = p0 :: p1 :: p2 :: rest)
    (h : Collinear p0 p1 p2) :
    estimatePlaneCoordinate Real.sqrt hull 2 2 = 0
      ∧ estimatePlaneCoordinate Real.sqrt hull ≠ 1 := by
  have h22 : estimatePlaneCoordinate Real.sqrt hull 2 2 = 0 := by
    have e : estimatePlaneCoordinate Real.sqrt hull 2 2
        = (columnVec (estimatePlaneCoordinate Real.sqrt hull) 2).z := rfl
    rw [e, columnVec_two Real.sqrt hull p0 p1 p2 rest hp, planeLocals_z_collinear p0 p1 p2 h]
    rfl
  refine ⟨h22, ?_⟩
  intro e
  rw [e] at h22
  simp at h22

/-- The three points of `collinearHull` are collinear. -/
theorem collinearHull_collinear :
    Collinear (⟨0, 0, 1, 0⟩ : PointXYZRGB ℝ) ⟨1, 0, 1, 0⟩ ⟨2, 0, 1, 0⟩ := by
  unfold Collinear
  ext <;> simp [Vector3.cross]

/-- C2 (the code departs from it): on the hull `collinearHull`, whose three points are
collinear, the divisor of `z.normalize ()` is zero and `estimatePlaneCoordinate` does not
return the identity: the entry `(2, 2)` of the returned matrix is 0 in the embedding
(a NaN in floating point), not 1. -/
theorem estimatePlaneCoordinate_collinear_not_identity :
    Collinear (⟨0, 0, 1, 0⟩ : PointXYZRGB ℝ) ⟨1, 0, 1, 0⟩ ⟨2, 0, 1, 0⟩
      ∧ (Vector3.cross (⟨2 - 1, 0 - 0, 1 - 1⟩ : Vector3 ℝ) ⟨0 - 1, 0 - 0, 1 - 1⟩).norm Real.sqrt
        = 0
      ∧ estimatePlaneCoordinate Real.sqrt (collinearHull ℝ) 2 2 = 0
      ∧ estimatePlaneCoordinate Real.sqrt (collinearHull ℝ) ≠ 1 := by
  refine ⟨collinearHull_collinear, ?_,
    estimatePlaneCoordinate_collinear_ne_one (collinearHull ℝ) ⟨0, 0, 1, 0⟩ ⟨1, 0, 1, 0⟩
      ⟨2, 0, 1, 0⟩ [] rfl collinearHull_collinear⟩
  simp [Vector3.norm, Vector3.cross, Vector3.squaredNorm]

end Degenerate

/-! ## The acquisition latch and the tracker update -/

section Latch

/-- The stand-in normal estimator returns one normal for every point. -/
theorem stubCollaborators_normals (inliers : List Nat) (clusters : List (List Nat))
    (cloud : Cloud ℚ) :
    ((stubCollaborators ℚ inliers clusters).normalEstimation cloud).points.length
      = cloud.points.length := by
  simp [stubCollaborators]

/-- C3 (the code departs from it): on a first-phase frame with four plane inliers and no
cluster, `cloud_cb` does not end the acquisition quietly: after `setTrans` and the
clustering it calls `rand ()` and stops on the remainder `rand () % 0`. -/
theorem cloud_cb_zero_clusters_fault :
    (OpenNISegmentTracking.init : OpenNISegmentTracking ℚ).firstp_ = true
      ∧ ((stubCollaborators ℚ [0, 1, 2, 3] []).planeSegmentation
          ((stubCollaborators ℚ [0, 1, 2, 3] []).gridSample
            ((stubCollaborators ℚ [0, 1, 2, 3] []).filterPassThrough (sampleFrame ℚ)))).2.length
        > 3
      ∧ (stubCollaborators ℚ [0, 1, 2, 3] []).euclideanSegment (sampleFrame ℚ) = []
      ∧ (cloud_cb (stubCollaborators ℚ [0, 1, 2, 3] []) OpenNISegmentTracking.init
          (sampleFrame ℚ) 0).fault = some Fault.moduloByZero
      ∧ (cloud_cb (stubCollaborators ℚ [0, 1, 2, 3] []) OpenNISegmentTracking.init
          (sampleFrame ℚ) 0).state.calls
        = [Call.filterPassThrough, Call.gridSample, Call.planeSegmentation,
            Call.planeProjection, Call.convexHull, Call.estimatePlaneCoordinate,
            Call.setTrans, Call.polygonExtractSegment, Call.extractPositiveFilter,
            Call.euclideanSegment, Call.rand] := by
  have hin : ((stubCollaborators ℚ [0, 1, 2, 3] []).planeSegmentation
      ((stubCollaborators ℚ [0, 1, 2, 3] []).gridSample
        ((stubCollaborators ℚ [0, 1, 2, 3] []).filterPassThrough (sampleFrame ℚ)))).2.length
      > 3 := by
    simp [stubCollaborators]
  refine ⟨rfl, hin, rfl, ?_⟩
  rw [cloud_cb_acquisition (stubCollaborators ℚ [0, 1, 2, 3] []) OpenNISegmentTracking.init
    (sampleFrame ℚ) 0 rfl hin]
  obtain ⟨h1, h2⟩ := cloud_cb_acquire_zero_clusters (stubCollaborators ℚ [0, 1, 2, 3] [])
    { (OpenNISegmentTracking.init : OpenNISegmentTracking ℚ) with
        cloud_pass_ := some ((stubCollaborators ℚ [0, 1, 2, 3] []).filterPassThrough
          (sampleFrame ℚ)),
        cloud_pass_downsampled_ := some ((stubCollaborators ℚ [0, 1, 2, 3] []).gridSample
          ((stubCollaborators ℚ [0, 1, 2, 3] []).filterPassThrough (sampleFrame ℚ))),
        calls := (OpenNISegmentTracking.init : OpenNISegmentTracking ℚ).calls
          ++ [Call.filterPassThrough] ++ [Call.gridSample] ++ [Call.planeSegmentation] }
    ((stubCollaborators ℚ [0, 1, 2, 3] []).gridSample
      ((stubCollaborators ℚ [0, 1, 2, 3] []).filterPassThrough (sampleFrame ℚ)))
    ((stubCollaborators ℚ [0, 1, 2, 3] []).planeSegmentation
      ((stubCollaborators ℚ [0, 1, 2, 3] []).gridSample
        ((stubCollaborators ℚ [0, 1, 2, 3] []).filterPassThrough (sampleFrame ℚ)))).1 0 rfl
  exact ⟨h1, by rw [h2]; rfl⟩

/-- C4: on every frame that arrives while `firstp_` is true and for which plane
segmentation returns fewer than 4 inlier indices, `cloud_cb` returns without fault after
the two filters and plane segmentation: it makes no other call (no hull, prism,
clustering or normal step, no `setTrans`, `setReferenceCloud`, `setMinIndices`,
`setInputCloud` or `compute`), leaves the tracker and `firstp_` as they were, and on the
next frame, whatever it is, runs the two filters and plane segmentation again. -/
theorem cloud_cb_insufficient_inliers {α : Type} [LinearOrderedField α]
    (env : Collaborators α) (self : OpenNISegmentTracking α) (cloud : Cloud α) (rand : Nat)
    (hs : self.firstp_ = true)
    (hin : (env.planeSegmentation (env.gridSample (env.filterPassThrough cloud))).2.length < 4)
    (cloud' : Cloud α) (rand' : Nat) :
    (cloud_cb env self cloud rand).fault = none
      ∧ (cloud_cb env self cloud rand).state.calls
        = self.calls ++ [Call.filterPassThrough, Call.gridSample, Call.planeSegmentation]
      ∧ (cloud_cb env self cloud rand).state.tracker_ = self.tracker_
      ∧ ((cloud_cb env self cloud rand).state.cloud_hull_ = self.cloud_hull_
        ∧ (cloud_cb env self cloud rand).state.plane_trans_ = self.plane_trans_
        ∧ (cloud_cb env self cloud rand).state.nonplane_cloud_ = self.nonplane_cloud_
        ∧ (cloud_cb env self cloud rand).state.segmented_cloud_ = self.segmented_cloud_
        ∧ (cloud_cb env self cloud rand).state.normals_ = self.normals_)
      ∧ (cloud_cb env self cloud rand).state.firstp_ = true
      ∧ ∃ rest, (cloud_cb env (cloud_cb env self cloud rand).state cloud' rand').state.calls
          = (cloud_cb env self cloud rand).state.calls
            ++ [Call.filterPassThrough, Call.gridSample, Call.planeSegmentation] ++ rest := by
  have hin' :
      ¬(env.planeSegmentation (env.gridSample (env.filterPassThrough cloud))).2.length > 3 := by
    omega
  have hf : (cloud_cb env self cloud rand).state.firstp_ = true := by
    rw [cloud_cb_skip env self cloud rand hs hin']
    exact hs
  obtain ⟨_, _, rest, hr, _, _⟩ :=
    cloud_cb_first_calls env (cloud_cb env self cloud rand).state cloud' rand' hf
  refine ⟨?_, ?_, ?_, ?_, hf, rest, hr⟩
  · rw [cloud_cb_skip env self cloud rand hs hin']
  · rw [cloud_cb_skip env self cloud rand hs hin']
    simp
  · rw [cloud_cb_skip env self cloud rand hs hin']
  · rw [cloud_cb_skip env self cloud rand hs hin']
    exact ⟨rfl, rfl, rfl, rfl, rfl⟩

/-- The constructed object, on a frame with three plane inliers, stops after plane
segmentation without fault. -/
theorem cloud_cb_insufficient_inliers_witness :
    ((OpenNISegmentTracking.init : OpenNISegmentTracking ℚ).firstp_ = true
        ∧ ((stubCollaborators ℚ [0, 1, 2] []).planeSegmentation
            ((stubCollaborators ℚ [0, 1, 2] []).gridSample
              ((stubCollaborators ℚ [0, 1, 2] []).filterPassThrough (sampleFrame ℚ)))).2.length
          < 4)
      ∧ (cloud_cb (stubCollaborators ℚ [0, 1, 2] []) OpenNISegmentTracking.init
          (sampleFrame ℚ) 0).fault = none
      ∧ (cloud_cb (stubCollaborators ℚ [0, 1, 2] []) OpenNISegmentTracking.init
          (sampleFrame ℚ) 0).state.calls
        = (OpenNISegmentTracking.init : OpenNISegmentTracking ℚ).calls
          ++ [Call.filterPassThrough, Call.gridSample, Call.planeSegmentation] :=
  ⟨⟨rfl, by simp [stubCollaborators]⟩,
    (cloud_cb_insufficient_inliers (stubCollaborators ℚ [0, 1, 2] [])
      OpenNISegmentTracking.init (sampleFrame ℚ) 0 rfl (by simp [stubCollaborators])
      (sampleFrame ℚ) 0).1,
    (cloud_cb_insufficient_inliers (stubCollaborators ℚ [0, 1, 2] [])
      OpenNISegmentTracking.init (sampleFrame ℚ) 0 rfl (by simp [stubCollaborators])
      (sampleFrame ℚ) 0).2.1⟩

/-- C5: the acquisition latch is one-way.  The constructed object has `firstp_` true.
A call of `cloud_cb` on an object `self` with `firstp_` true leaves it true, or ends
without fault having made exactly the calls of a completed acquisition, with the
reference cloud and the minimum number of indices handed to the tracker; in either case
it makes no `setInputCloud` and no `compute` call.  From an object `other` with `firstp_`
false, with an estimator that returns one normal per point, every sequence of frames runs
without fault, leaves `firstp_` false and the reference cloud as it was, and makes on
each frame exactly the calls of the tracking branch, `compute` once per frame. -/
theorem acquisition_latch_one_way {α : Type} [LinearOrderedField α] (env : Collaborators α)
    (hne : ∀ cloud : Cloud α, (env.normalEstimation cloud).points.length = cloud.points.length)
    (self : OpenNISegmentTracking α) (hs : self.firstp_ = true) (cloud : Cloud α) (rand : Nat)
    (other : OpenNISegmentTracking α) (ho : other.firstp_ = false)
    (frames : List (Cloud α × Nat)) :
    (OpenNISegmentTracking.init : OpenNISegmentTracking α).firstp_ = true
      ∧ ((cloud_cb env self cloud rand).state.firstp_ = true
        ∨ ((cloud_cb env self cloud rand).state.firstp_ = false
          ∧ (cloud_cb env self cloud rand).fault = none
          ∧ (∃ ref, (cloud_cb env self cloud rand).state.tracker_.reference = some ref
              ∧ (cloud_cb env self cloud rand).state.tracker_.min_indices
                = some (ref.points.length / 2))
          ∧ (cloud_cb env self cloud rand).state.calls = self.calls ++ acquisitionCalls))
      ∧ ((cloud_cb env self cloud rand).state.tracker_.computes = self.tracker_.computes
        ∧ ∃ rest, (cloud_cb env self cloud rand).state.calls
            = self.calls
              ++ [Call.filterPassThrough, Call.gridSample, Call.planeSegmentation] ++ rest
          ∧ Call.compute ∉ rest ∧ Call.setInputCloud ∉ rest)
      ∧ ((runFrames env other frames).fault = none
        ∧ (runFrames env other frames).state.firstp_ = false
        ∧ (runFrames env other frames).state.tracker_.reference = other.tracker_.reference
        ∧ (runFrames env other frames).state.calls
          = other.calls ++ frames.flatMap (fun _ => trackingCalls)
        ∧ (runFrames env other frames).state.tracker_.computes
          = other.tracker_.computes + frames.length)
      ∧ (trackingCalls.count Call.compute = 1
        ∧ ∀ call ∈ trackingCalls, call ∉ [Call.planeSegmentation, Call.planeProjection,
            Call.convexHull, Call.estimatePlaneCoordinate, Call.setTrans,
            Call.polygonExtractSegment, Call.extractPositiveFilter, Call.euclideanSegment,
            Call.rand, Call.addNormalToCloud, Call.setReferenceCloud, Call.setMinIndices]) := by
  obtain ⟨h1, _, h3⟩ := cloud_cb_first_calls env self cloud rand hs
  exact ⟨rfl, cloud_cb_first_latch env self cloud rand hs, ⟨h1, h3⟩,
    runFrames_tracking env hne frames other ho, by decide, by decide⟩

/-- With the stand-in collaborators, which meet the hypothesis on the normals, an object
in the Tracking state makes two `compute` calls on two frames; and the constructed
object, on a frame with four inliers and one cluster, releases the latch. -/
theorem acquisition_latch_one_way_witness :
    ((∀ cloud : Cloud ℚ,
          ((stubCollaborators ℚ [0, 1, 2, 3] [[0, 1]]).normalEstimation cloud).points.length
            = cloud.points.length)
        ∧ (OpenNISegmentTracking.init : OpenNISegmentTracking ℚ).firstp_ = true
        ∧ (trackingObject ℚ).firstp_ = false)
      ∧ (runFrames (stubCollaborators ℚ [0, 1, 2, 3] [[0, 1]]) (trackingObject ℚ)
          [(sampleFrame ℚ, 0), (PointCloud.new, 0)]).state.tracker_.computes
        = (trackingObject ℚ).tracker_.computes + 2
      ∧ (cloud_cb (stubCollaborators ℚ [0, 1, 2, 3] [[0, 1]]) OpenNISegmentTracking.init
          (sampleFrame ℚ) 0).state.firstp_ = false :=
  ⟨⟨stubCollaborators_normals [0, 1, 2, 3] [[0, 1]], rfl, rfl⟩,
    (acquisition_latch_one_way (stubCollaborators ℚ [0, 1, 2, 3] [[0, 1]])
      (stubCollaborators_normals [0, 1, 2, 3] [[0, 1]]) OpenNISegmentTracking.init rfl
      (sampleFrame ℚ) 0 (trackingObject ℚ) rfl
      [(sampleFrame ℚ, 0), (PointCloud.new, 0)]).2.2.2.1.2.2.2.2,
    by decide⟩

/-- C6 (as amended): on every frame that arrives with `firstp_` false and whose
preprocessed cloud has no point, `cloud_cb` does not skip the tracker update: without
fault it estimates normals, calls `setInputCloud` with a tracking cloud that has no
point, and calls `compute` once; the reference cloud and `firstp_` are unchanged. -/
theorem cloud_cb_empty_frame_updates {α : Type} [LinearOrderedField α]
    (env : Collaborators α) (self : OpenNISegmentTracking α) (cloud : Cloud α) (rand : Nat)
    (hs : self.firstp_ = false)
    (he : (env.gridSample (env.filterPassThrough cloud)).points = []) :
    (cloud_cb env self cloud rand).fault = none
      ∧ (cloud_cb env self cloud rand).state.calls = self.calls ++ trackingCalls
      ∧ (cloud_cb env self cloud rand).state.tracker_.input
        = some { points := [],
                 width := (env.gridSample (env.filterPassThrough cloud)).width,
                 height := (env.gridSample (env.filterPassThrough cloud)).height,
                 is_dense := (env.gridSample (env.filterPassThrough cloud)).is_dense }
      ∧ (cloud_cb env self cloud rand).state.tracker_.computes = self.tracker_.computes + 1
      ∧ (cloud_cb env self cloud rand).state.tracker_.reference = self.tracker_.reference
      ∧ (cloud_cb env self cloud rand).state.firstp_ = false := by
  rw [cloud_cb_tracking env self cloud rand hs]
  obtain ⟨h1, h2, h3, h4, _, _, h7, pts, hl, hi⟩ := cloud_cb_track_ok env
    { self with
        cloud_pass_ := some (env.filterPassThrough cloud),
        cloud_pass_downsampled_ := some (env.gridSample (env.filterPassThrough cloud)),
        calls := self.calls ++ [Call.filterPassThrough] ++ [Call.gridSample] }
    (env.gridSample (env.filterPassThrough cloud)) (by rw [he]; exact Nat.zero_le _)
  rw [he] at hl
  have hpts : pts = [] := List.eq_nil_of_length_eq_zero hl
  subst hpts
  refine ⟨h1, ?_, hi, h7, h4, h2.trans hs⟩
  rw [h3]
  simp [trackingCalls]

/-- An object in the Tracking state, on a frame without points, makes the calls of the
tracking branch without fault. -/
theorem cloud_cb_empty_frame_updates_witness :
    ((trackingObject ℚ).firstp_ = false
        ∧ ((stubCollaborators ℚ [] []).gridSample
            ((stubCollaborators ℚ [] []).filterPassThrough PointCloud.new)).points = [])
      ∧ (cloud_cb (stubCollaborators ℚ [] []) (trackingObject ℚ) PointCloud.new 0).fault
        = none
      ∧ (cloud_cb (stubCollaborators ℚ [] []) (trackingObject ℚ) PointCloud.new
          0).state.calls
        = (trackingObject ℚ).calls ++ trackingCalls :=
  ⟨⟨rfl, rfl⟩,
    (cloud_cb_empty_frame_updates (stubCollaborators ℚ [] []) (trackingObject ℚ)
      PointCloud.new 0 rfl rfl).1,
    (cloud_cb_empty_frame_updates (stubCollaborators ℚ [] []) (trackingObject ℚ)
      PointCloud.new 0 rfl rfl).2.1⟩

/-- C6 (as stated, refuted): an object in the Tracking state, with no call made and no
`compute` so far, receives a frame whose preprocessed cloud has no point; `cloud_cb`
calls `setInputCloud` and `compute` on the tracker all the same. -/
theorem cloud_cb_empty_frame_not_skipped :
    (trackingObject ℚ).firstp_ = false
      ∧ ((stubCollaborators ℚ [] []).gridSample
          ((stubCollaborators ℚ [] []).filterPassThrough PointCloud.new)).points = []
      ∧ (trackingObject ℚ).calls = []
      ∧ (trackingObject ℚ).tracker_.computes = 0
      ∧ Call.setInputCloud
          ∈ (cloud_cb (stubCollaborators ℚ [] []) (trackingObject ℚ) PointCloud.new
              0).state.calls
      ∧ Call.compute
          ∈ (cloud_cb (stubCollaborators ℚ [] []) (trackingObject ℚ) PointCloud.new
              0).state.calls
      ∧ (cloud_cb (stubCollaborators ℚ [] []) (trackingObject ℚ) PointCloud.new
          0).state.tracker_.computes = 1 := by
  refine ⟨rfl, rfl, rfl, rfl, ?_, ?_, ?_⟩
  · decide
  · decide
  · rfl

end Latch

/-! ## The divisor of the blend coefficient -/

section Divisor

open Vector3

/-- Non-collinear points have a non-zero edge `BA`. -/
theorem planeLocals_BA_ne_zero_of_not_collinear (p0 p1 p2 : PointXYZRGB ℝ)
    (hc : ¬Collinear p0 p1 p2) : (planeLocals Real.sqrt p0 p1 p2).BA ≠ 0 := by
  intro e
  apply hc
  have e' : (⟨p0.x - p1.x, p0.y - p1.y, p0.z - p1.z⟩ : Vector3 ℝ) = 0 := e
  unfold Collinear
  rw [e']
  ext <;> simp [Vector3.cross]

/-- C13: for every three non-collinear hull points the quotient `tmp` is
`ux.dot (yy) / ux.dot (xx)`, its divisor `ux.dot (xx)` is `|P0.x - P1.x| / |BA|` with
`|BA| > 0`, hence non-negative, and non-zero exactly when `P0.x ≠ P1.x`; and the function
has no test on it: on every hull that starts with these points the returned matrix is
the one built from the local variables, whether `P0.x = P1.x` or not. -/
theorem estimatePlaneCoordinate_divisor (hull : Cloud ℝ) (p0 p1 p2 : PointXYZRGB ℝ)
    (rest : List (PointXYZRGB ℝ)) (hp : hull.points = p0 :: p1 :: p2 :: rest)
    (hc : ¬Collinear p0 p1 p2) :
    (planeLocals Real.sqrt p0 p1 p2).tmp
        = Vector3.dot ⟨1, 0, 0⟩ (planeLocals Real.sqrt p0 p1 p2).yy
          / Vector3.dot ⟨1, 0, 0⟩ (planeLocals Real.sqrt p0 p1 p2).xx
      ∧ (0 < (planeLocals Real.sqrt p0 p1 p2).BA.norm Real.sqrt
        ∧ Vector3.dot ⟨1, 0, 0⟩ (planeLocals Real.sqrt p0 p1 p2).xx
          = |p0.x - p1.x| / (planeLocals Real.sqrt p0 p1 p2).BA.norm Real.sqrt)
      ∧ 0 ≤ Vector3.dot ⟨1, 0, 0⟩ (planeLocals Real.sqrt p0 p1 p2).xx
      ∧ (Vector3.dot ⟨1, 0, 0⟩ (planeLocals Real.sqrt p0 p1 p2).xx ≠ 0 ↔ p0.x ≠ p1.x)
      ∧ estimatePlaneCoordinate Real.sqrt hull
        = !![(planeLocals Real.sqrt p0 p1 p2).x.x, (planeLocals Real.sqrt p0 p1 p2).y.x,
              (planeLocals Real.sqrt p0 p1 p2).z.x, (planeLocals Real.sqrt p0 p1 p2).position.x;
             (planeLocals Real.sqrt p0 p1 p2).x.y, (planeLocals Real.sqrt p0 p1 p2).y.y,
              (planeLocals Real.sqrt p0 p1 p2).z.y, (planeLocals Real.sqrt p0 p1 p2).position.y;
             (planeLocals Real.sqrt p0 p1 p2).x.z, (planeLocals Real.sqrt p0 p1 p2).y.z,
              (planeLocals Real.sqrt p0 p1 p2).z.z, (planeLocals Real.sqrt p0 p1 p2).position.z;
             0, 0, 0, 1] := by
  have hn : 0 < (planeLocals Real.sqrt p0 p1 p2).BA.norm Real.sqrt :=
    norm_pos (planeLocals_BA_ne_zero_of_not_collinear p0 p1 p2 hc)
  have hd : Vector3.dot ⟨1, 0, 0⟩ (planeLocals Real.sqrt p0 p1 p2).xx
      = |p0.x - p1.x| / (planeLocals Real.sqrt p0 p1 p2).BA.norm Real.sqrt := by
    rw [ux_dot, planeLocals_xx_x]
  refine ⟨rfl, ⟨hn, hd⟩, ?_, ?_, estimatePlaneCoordinate_cons Real.sqrt hull p0 p1 p2 rest hp⟩
  · rw [hd]
    exact div_nonneg (abs_nonneg _) (le_of_lt hn)
  · rw [hd]
    constructor
    · intro h e
      apply h
      rw [e, sub_self, abs_zero, zero_div]
    · intro h
      exact ne_of_gt (div_pos (abs_pos.2 (sub_ne_zero.2 h)) hn)

/-- The three points of `verticalEdgeHull` are not collinear. -/
theorem verticalEdgeHull_not_collinear :
    ¬Collinear (⟨0, 1, 1, 0⟩ : PointXYZRGB ℝ) ⟨0, 0, 1, 0⟩ ⟨1, 0, 1, 0⟩ := by
  intro h
  have hz := congrArg Vector3.z h
  simp [Vector3.cross] at hz

/-- On the hull `verticalEdgeHull`, whose points are not collinear and whose first two
points have the same `x`, the divisor is non-negative and is non-zero only if `0 ≠ 0`. -/
theorem estimatePlaneCoordinate_divisor_witness :
    ¬Collinear (⟨0, 1, 1, 0⟩ : PointXYZRGB ℝ) ⟨0, 0, 1, 0⟩ ⟨1, 0, 1, 0⟩
      ∧ 0 ≤ Vector3.dot ⟨1, 0, 0⟩
          (planeLocals Real.sqrt (⟨0, 1, 1, 0⟩ : PointXYZRGB ℝ) ⟨0, 0, 1, 0⟩ ⟨1, 0, 1, 0⟩).xx
      ∧ (Vector3.dot ⟨1, 0, 0⟩
            (planeLocals Real.sqrt (⟨0, 1, 1, 0⟩ : PointXYZRGB ℝ) ⟨0, 0, 1, 0⟩ ⟨1, 0, 1, 0⟩).xx
          ≠ 0 ↔ (0 : ℝ) ≠ 0) :=
  ⟨verticalEdgeHull_not_collinear,
    (estimatePlaneCoordinate_divisor (verticalEdgeHull ℝ) ⟨0, 1, 1, 0⟩ ⟨0, 0, 1, 0⟩
      ⟨1, 0, 1, 0⟩ [] rfl verticalEdgeHull_not_collinear).2.2.1,
    (estimatePlaneCoordinate_divisor (verticalEdgeHull ℝ) ⟨0, 1, 1, 0⟩ ⟨0, 0, 1, 0⟩
      ⟨1, 0, 1, 0⟩ [] rfl verticalEdgeHull_not_collinear).2.2.2.1⟩

end Divisor

/-! ## Attaching normals and the target model -/

section TargetModel

/-- A successful run of the loop over the points: one joined point per input point, in
order, each with the normal of the same index. -/
theorem attachNormals_spec {α : Type} (points : List (PointXYZRGB α)) :
    ∀ (normals : List (Normal α)) (r : List (PointXYZRGBNormal α)),
      attachNormals points normals = Except.ok r →
        r.length = points.length
          ∧ ∀ (i : Nat) (p : PointXYZRGB α), points[i]? = some p →
              ∃ n, normals[i]? = some n ∧ r[i]? = some (joinNormal p n) := by
  induction points with
  | nil =>
    intro normals r h
    simp only [attachNormals, Except.ok.injEq] at h
    subst h
    exact ⟨rfl, fun i p hp => by simp at hp⟩
  | cons q qs ih =>
    intro normals r h
    cases normals with
    | nil => simp [attachNormals] at h
    | cons m ms =>
      simp only [attachNormals] at h
      cases hrec : attachNormals qs ms with
      | error f => rw [hrec] at h; simp at h
      | ok tl =>
        rw [hrec] at h
        simp only [Except.ok.injEq] at h
        subst h
        obtain ⟨hl, hi⟩ := ih ms tl hrec
        refine ⟨by simp [hl], ?_⟩
        intro i p hp
        cases i with
        | zero =>
          simp only [List.getElem?_cons_zero, Option.some.injEq] at hp
          subst hp
          exact ⟨m, by simp, by simp [joinNormal]⟩
        | succ k =>
          simp only [List.getElem?_cons_succ] at hp
          obtain ⟨n, hn, hr⟩ := hi k p hp
          exact ⟨n, by simpa using hn, by simpa using hr⟩

/-- A successful run of the loop over the cluster indices: one point per index, in
order, the point of the cloud at that index. -/
theorem selectPoints_spec {α : Type} (points : List (PointXYZRGB α)) :
    ∀ (indices : List Nat) (pts : List (PointXYZRGB α)),
      selectPoints points indices = Except.ok pts →
        pts.length = indices.length
          ∧ ∀ (i j : Nat), indices[i]? = some j →
              ∃ p, points[j]? = some p ∧ pts[i]? = some p := by
  intro indices
  induction indices with
  | nil =>
    intro pts h
    simp only [selectPoints, Except.ok.injEq] at h
    subst h
    exact ⟨rfl, fun i j hj => by simp at hj⟩
  | cons j0 js ih =>
    intro pts h
    simp only [selectPoints] at h
    cases hp : points[j0]? with
    | none => rw [hp] at h; simp at h
    | some p0 =>
      rw [hp] at h
      simp only at h
      cases hrec : selectPoints points js with
      | error f => rw [hrec] at h; simp at h
      | ok tl =>
        rw [hrec] at h
        simp only [Except.ok.injEq] at h
        subst h
        obtain ⟨hl, hi⟩ := ih tl hrec
        refine ⟨by simp [hl], ?_⟩
        intro i j hj
        cases i with
        | zero =>
          simp only [List.getElem?_cons_zero, Option.some.injEq] at hj
          subst hj
          exact ⟨p0, hp, by simp⟩
        | succ k =>
          simp only [List.getElem?_cons_succ] at hj
          obtain ⟨p, h1, h2⟩ := hi k j hj
          exact ⟨p, h1, by simpa using h2⟩

/-- With fewer normals than points the loop reads `normals->points[i]` out of range. -/
theorem attachNormals_short {α : Type} (points : List (PointXYZRGB α)) :
    ∀ normals : List (Normal α), normals.length < points.length →
      attachNormals points normals = Except.error Fault.outOfRange := by
  induction points with
  | nil => intro normals h; simp at h
  | cons q qs ih =>
    intro normals h
    cases normals with
    | nil => rfl
    | cons m ms =>
      have h' : ms.length < qs.length := by simpa using h
      simp only [attachNormals, ih ms h']

/-- C12 (as amended): `addNormalToCloud` makes no test of the two counts.  For every
point cloud and normal cloud with at least as many normals as points, equal or not, it
produces a result: the points already in `result` followed by one point per point of
the cloud, in order, each with the position and colour of that point and the normal of
the same index, under the width, height and density flag of the cloud. -/
theorem addNormalToCloud_unchecked {α : Type} (cloud : Cloud α)
    (normals : PointCloud (Normal α)) (result : RefCloud α)
    (h : cloud.points.length ≤ normals.points.length) :
    ∃ r, addNormalToCloud cloud normals result = Except.ok r
      ∧ r.points.length = result.points.length + cloud.points.length
      ∧ (r.width = cloud.width ∧ r.height = cloud.height ∧ r.is_dense = cloud.is_dense)
      ∧ (∀ (i : Nat), i < result.points.length → r.points[i]? = result.points[i]?)
      ∧ ∀ (i : Nat) (p : PointXYZRGB α), cloud.points[i]? = some p →
          ∃ n, normals.points[i]? = some n
            ∧ r.points[result.points.length + i]? = some (joinNormal p n) := by
  obtain ⟨pts, hpts, _⟩ := attachNormals_ok cloud.points normals.points h
  obtain ⟨hl, hi⟩ := attachNormals_spec cloud.points normals.points pts hpts
  refine ⟨{ points := result.points ++ pts, width := cloud.width, height := cloud.height,
            is_dense := cloud.is_dense }, ?_, ?_, ⟨rfl, rfl, rfl⟩, ?_, ?_⟩
  · simp only [addNormalToCloud, hpts]
  · simp [hl]
  · intro i hlt
    exact List.getElem?_append_left hlt
  · intro i p hp
    obtain ⟨n, hn, hr⟩ := hi i p hp
    refine ⟨n, hn, ?_⟩
    show (result.points ++ pts)[result.points.length + i]? = some (joinNormal p n)
    rw [List.getElem?_append_right (Nat.le_add_right _ _), Nat.add_sub_cancel_left]
    exact hr

/-- One point and two normals: the count of normals is not below the count of points,
and a result of one point is produced. -/
theorem addNormalToCloud_unchecked_witness :
    (onePointCloud ℚ).points.length ≤ (twoNormals ℚ).points.length
      ∧ ∃ r, addNormalToCloud (onePointCloud ℚ) (twoNormals ℚ) PointCloud.new = Except.ok r
          ∧ r.points.length
            = (PointCloud.new : RefCloud ℚ).points.length + (onePointCloud ℚ).points.length :=
  ⟨by decide,
    (addNormalToCloud_unchecked (onePointCloud ℚ) (twoNormals ℚ) PointCloud.new
      (by decide)).imp (fun _ hr => ⟨hr.1, hr.2.1⟩)⟩

/-- C12 (as stated, refuted): on a cloud of one point and a cloud of two normals the two
counts differ, and `addNormalToCloud` reports no failure: it produces a result cloud. -/
theorem addNormalToCloud_mismatch_accepted :
    (onePointCloud ℚ).points.length ≠ (twoNormals ℚ).points.length
      ∧ addNormalToCloud (onePointCloud ℚ) (twoNormals ℚ) PointCloud.new
        = Except.ok
            { points := [joinNormal ⟨1, 0, 1, 0⟩ ⟨0, 0, 1⟩], width := 1, height := 1,
              is_dense := true } :=
  ⟨by decide, rfl⟩

/-- When the acquisition block releases the latch, the cluster of index
`rand % cluster_indices.size ()` was selected without fault, the normals were attached
without fault, and the result is what the tracker holds. -/
theorem cloud_cb_acquire_model {α : Type} [LinearOrderedField α] (env : Collaborators α)
    (self : OpenNISegmentTracking α) (down : Cloud α) (coefficients : List α) (rand : Nat)
    (hs : self.firstp_ = true)
    (hdone : (cloud_cb_acquire env self down coefficients rand).state.firstp_ = false) :
    ∃ (cluster : List Nat) (pts : List (PointXYZRGB α)) (ref : RefCloud α),
      (env.euclideanSegment
          (env.extractPositiveFilter down
            (env.polygonExtractSegment (env.convexHull (env.planeProjection down coefficients))
              down)))[rand % (env.euclideanSegment
          (env.extractPositiveFilter down
            (env.polygonExtractSegment (env.convexHull (env.planeProjection down coefficients))
              down))).length]? = some cluster
        ∧ selectPoints
            (env.extractPositiveFilter down
              (env.polygonExtractSegment
                (env.convexHull (env.planeProjection down coefficients)) down)).points cluster
          = Except.ok pts
        ∧ addNormalToCloud { points := pts, width := pts.length, height := 1, is_dense := true }
            (env.normalEstimation
              { points := pts, width := pts.length, height := 1, is_dense := true })
            PointCloud.new = Except.ok ref
        ∧ (cloud_cb_acquire env self down coefficients rand).state.segmented_cloud_
          = some { points := pts, width := pts.length, height := 1, is_dense := true }
        ∧ (cloud_cb_acquire env self down coefficients rand).state.tracker_.reference
          = some ref
        ∧ (cloud_cb_acquire env self down coefficients rand).state.tracker_.min_indices
          = some (ref.points.length / 2)
        ∧ (cloud_cb_acquire env self down coefficients rand).state.nonplane_cloud_
          = some (env.extractPositiveFilter down
              (env.polygonExtractSegment
                (env.convexHull (env.planeProjection down coefficients)) down))
        ∧ (cloud_cb_acquire env self down coefficients rand).fault = none := by
  unfold cloud_cb_acquire at hdone ⊢
  dsimp only at hdone ⊢
  split_ifs at hdone ⊢ with h
  · rw [hs] at hdone; exact absurd hdone (by decide)
  · split at hdone
    · rw [hs] at hdone; exact absurd hdone (by decide)
    · rename_i pts hsel
      split at hdone
      · rw [hs] at hdone; exact absurd hdone (by decide)
      · rename_i ref hadd
        refine ⟨_, pts, ref, ?_, hsel, hadd, ?_⟩
        · rw [List.getElem?_eq_getElem (Nat.mod_lt rand (Nat.pos_of_ne_zero h))]
          rfl
        · simp only [hsel, hadd]
          exact ⟨trivial, trivial, trivial, trivial, trivial⟩

/-- A result of `addNormalToCloud` is the cloud `result` extended by the joined points. -/
theorem addNormalToCloud_ok_inv {α : Type} (cloud : Cloud α)
    (normals : PointCloud (Normal α)) (result ref : RefCloud α)
    (h : addNormalToCloud cloud normals result = Except.ok ref) :
    ∃ r, attachNormals cloud.points normals.points = Except.ok r
      ∧ ref.points = result.points ++ r := by
  unfold addNormalToCloud at h
  cases hr : attachNormals cloud.points normals.points with
  | error f => rw [hr] at h; simp at h
  | ok r =>
    rw [hr] at h
    simp only [Except.ok.injEq] at h
    subst h
    exact ⟨r, rfl, rfl⟩

/-- C11: after every successful acquisition in `cloud_cb` (a call that starts with
`firstp_` true and ends with it false), the reference cloud handed to the tracker has
exactly one point per index of the selected cluster (the cluster of index
`rand % cluster_indices.size ()`), in index order: point `i` carries the position and
colour of the point of the extracted off-plane cloud at the cluster index `i` and the
normal of index `i` computed on the segmented cloud; and the minimum number of indices
handed to the tracker is half of that point count, rounded down. -/
theorem cloud_cb_target_model {α : Type} [LinearOrderedField α] (env : Collaborators α)
    (self : OpenNISegmentTracking α) (cloud : Cloud α) (rand : Nat)
    (hs : self.firstp_ = true)
    (hdone : (cloud_cb env self cloud rand).state.firstp_ = false) :
    ∃ (nonplane segmented : Cloud α) (cluster : List Nat) (ref : RefCloud α),
      nonplane
          = env.extractPositiveFilter (env.gridSample (env.filterPassThrough cloud))
              (env.polygonExtractSegment
                (env.convexHull
                  (env.planeProjection (env.gridSample (env.filterPassThrough cloud))
                    (env.planeSegmentation (env.gridSample (env.filterPassThrough cloud))).1))
                (env.gridSample (env.filterPassThrough cloud)))
        ∧ (cloud_cb env self cloud rand).state.nonplane_cloud_ = some nonplane
        ∧ (env.euclideanSegment nonplane)[rand % (env.euclideanSegment nonplane).length]?
          = some cluster
        ∧ (cloud_cb env self cloud rand).state.segmented_cloud_ = some segmented
        ∧ (cloud_cb env self cloud rand).state.tracker_.reference = some ref
        ∧ ref.points.length = cluster.length
        ∧ (∀ (i j : Nat), cluster[i]? = some j →
            ∃ p n, nonplane.points[j]? = some p ∧ segmented.points[i]? = some p
              ∧ (env.normalEstimation segmented).points[i]? = some n
              ∧ ref.points[i]? = some (joinNormal p n))
        ∧ (cloud_cb env self cloud rand).state.tracker_.min_indices
          = some (cluster.length / 2)
        ∧ (cloud_cb env self cloud rand).fault = none := by
  have hin :
      (env.planeSegmentation (env.gridSample (env.filterPassThrough cloud))).2.length > 3 := by
    by_contra hin
    rw [cloud_cb_skip env self cloud rand hs hin] at hdone
    rw [hs] at hdone
    exact absurd hdone (by decide)
  rw [cloud_cb_acquisition env self cloud rand hs hin] at hdone ⊢
  obtain ⟨cluster, pts, ref, hcl, hsel, hadd, hseg, href, hmin, hnon, hfault⟩ :=
    cloud_cb_acquire_model env _ _ _ rand (by exact hs) hdone
  obtain ⟨hl, hi⟩ := selectPoints_spec _ cluster pts hsel
  obtain ⟨r, hr, hpts⟩ := addNormalToCloud_ok_inv _ _ _ ref hadd
  obtain ⟨hrl, hri⟩ := attachNormals_spec _ _ r hr
  have hrp : ref.points = r := by
    rw [hpts]; rfl
  have hlen : ref.points.length = cluster.length := by
    rw [hrp, hrl]; exact hl
  refine ⟨_, _, cluster, ref, rfl, hnon, hcl, hseg, href, hlen, ?_, ?_, hfault⟩
  · intro i j hj
    obtain ⟨p, hp1, hp2⟩ := hi i j hj
    obtain ⟨n, hn, hrn⟩ := hri i p hp2
    exact ⟨p, n, hp1, hp2, hn, by rw [hrp]; exact hrn⟩
  · rw [hmin, hlen]

/-- The stand-in collaborators with four inliers and the cluster of the points 0 and 1:
the constructed object completes the acquisition on `sampleFrame`, and the tracker
then holds a reference cloud with one point per cluster index and half that count as
the minimum number of indices. -/
theorem cloud_cb_target_model_witness :
    ((OpenNISegmentTracking.init : OpenNISegmentTracking ℚ).firstp_ = true
        ∧ (cloud_cb (stubCollaborators ℚ [0, 1, 2, 3] [[0, 1]]) OpenNISegmentTracking.init
            (sampleFrame ℚ) 0).state.firstp_ = false)
      ∧ ∃ (nonplane segmented : Cloud ℚ) (cluster : List Nat) (ref : RefCloud ℚ),
          (cloud_cb (stubCollaborators ℚ [0, 1, 2, 3] [[0, 1]]) OpenNISegmentTracking.init
              (sampleFrame ℚ) 0).state.nonplane_cloud_ = some nonplane
            ∧ (cloud_cb (stubCollaborators ℚ [0, 1, 2, 3] [[0, 1]]) OpenNISegmentTracking.init
              (sampleFrame ℚ) 0).state.segmented_cloud_ = some segmented
            ∧ (cloud_cb (stubCollaborators ℚ [0, 1, 2, 3] [[0, 1]]) OpenNISegmentTracking.init
              (sampleFrame ℚ) 0).state.tracker_.reference = some ref
            ∧ ref.points.length = cluster.length
            ∧ (cloud_cb (stubCollaborators ℚ [0, 1, 2, 3] [[0, 1]]) OpenNISegmentTracking.init
              (sampleFrame ℚ) 0).state.tracker_.min_indices = some (cluster.length / 2) :=
  ⟨⟨rfl, by decide⟩,
    match cloud_cb_target_model (stubCollaborators ℚ [0, 1, 2, 3] [[0, 1]])
      OpenNISegmentTracking.init (sampleFrame ℚ) 0 rfl (by decide) with
    | ⟨nonplane, segmented, cluster, ref, _, h2, _, h4, h5, h6, _, h8, _⟩ =>
      ⟨nonplane, segmented, cluster, ref, h2, h4, h5, h6, h8⟩⟩

end TargetModel

end PclSandbox
